import Mathlib

/-!
Verification development for the guitar-chart note loaders of this
StepMania fork (`NotesLoaderChart.cpp` and `NotesLoaderMID.cpp`):
a shallow embedding of the two note-classification engines and proofs
about them.

Conventions used throughout:
* C++ `int` is modelled as `Int`.  C++ `/` on `int` truncates toward
  zero, modelled by `Int.tdiv` (every divisor in the embedded code is a
  positive literal).
* The external timeline container (`NoteData`) and the beat-to-row
  conversion (`BeatToNoteRow`) are not part of the sources; they are
  modelled from the spec, see the doc comments on `NoteData` and
  `BeatToNoteRow` below.
* Byte values handled by the MIDI System-Exclusive translator are
  modelled as unsigned values `0..255`.
-/

/-- The note-event categories of the shared output contract: tap, strum
(gem) and hammer-on (HOPO), each with a held variant, plus the empty
event.  These mirror `TAP_EMPTY`, `TAP_ORIGINAL_TAP`,
`TAP_ORIGINAL_HOLD_HEAD`, `TAP_ORIGINAL_GEM`, `TAP_ORIGINAL_GEM_HOLD`,
`TAP_ORIGINAL_HOPO` and `TAP_ORIGINAL_HOPO_HOLD`. -/
inductive TapNoteType where
  | Empty
  | Tap
  | HoldHead
  | Gem
  | GemHold
  | HOPO
  | HOPOHold
deriving DecidableEq

/-- A timeline event: a category tag together with a duration in rows
(`iDuration`; zero for instantaneous events, positive for hold heads). -/
structure TapNote where
  type : TapNoteType
  iDuration : Int
deriving DecidableEq

def TAP_EMPTY : TapNote := ⟨TapNoteType.Empty, 0⟩

def TAP_ORIGINAL_TAP : TapNote := ⟨TapNoteType.Tap, 0⟩

def TAP_ORIGINAL_HOLD_HEAD : TapNote := ⟨TapNoteType.HoldHead, 0⟩

def TAP_ORIGINAL_GEM : TapNote := ⟨TapNoteType.Gem, 0⟩

def TAP_ORIGINAL_GEM_HOLD : TapNote := ⟨TapNoteType.GemHold, 0⟩

def TAP_ORIGINAL_HOPO : TapNote := ⟨TapNoteType.HOPO, 0⟩

def TAP_ORIGINAL_HOPO_HOLD : TapNote := ⟨TapNoteType.HOPOHold, 0⟩

/-- Modelled from the spec: the external note-timeline storage (the
`NoteData` class is not among the sources).  Per the spec the core only
requires set-single-event-at-row, add-held-event-spanning-rows and
query-event-at-row, with events carrying a duration and a category tag.
We model it as a total map from (track, row) to events, empty by
default. -/
structure NoteData where
  taps : Int → Int → TapNote

def NoteData.GetTapNote (nd : NoteData) (track row : Int) : TapNote :=
  nd.taps track row

def NoteData.SetTapNote (nd : NoteData) (track row : Int) (tn : TapNote) : NoteData :=
  ⟨fun t r => if t = track ∧ r = row then tn else nd.taps t r⟩

/-- Modelled from the spec: `AddHoldNote` records a held event spanning
`startRow..endRow` as a hold head carrying its duration at the start
row. -/
def NoteData.AddHoldNote (nd : NoteData) (track startRow endRow : Int) (kind : TapNote) : NoteData :=
  nd.SetTapNote track startRow ⟨kind.type, endRow - startRow⟩

def emptyNoteData : NoteData := ⟨fun _ _ => TAP_EMPTY⟩

/-- Modelled from the spec: `BeatToNoteRow` (the external `beatToRow`
conversion from fractional beats, `tick / resolution`, to the discrete
row unit) is out of scope for the sources and is treated by the spec as
an opaque service.  The spec states all positions in ticks, so we work
at tick granularity: a tick is its own row. -/
def BeatToNoteRow (resolution tick : Int) : Int := tick

/-! ## Text-chart front end (`NotesLoaderChart.cpp`) -/

/-- `addNote` from `NotesLoaderChart.cpp`: emits one event of category
1 (tap), 2 (gem/strum) or 3 (HOPO), as the held variant when
`e > s` and the instantaneous variant otherwise; any other category is
invalid and nothing is written. -/
def addNote (notes : NoteData) (track s e noteCategory : Int) : NoteData :=
  if noteCategory = 1 then
    if e > s then notes.AddHoldNote track s e TAP_ORIGINAL_HOLD_HEAD
    else notes.SetTapNote track s TAP_ORIGINAL_TAP
  else if noteCategory = 2 then
    if e > s then notes.AddHoldNote track s e TAP_ORIGINAL_GEM_HOLD
    else notes.SetTapNote track s TAP_ORIGINAL_GEM
  else if noteCategory = 3 then
    if e > s then notes.AddHoldNote track s e TAP_ORIGINAL_HOPO_HOLD
    else notes.SetTapNote track s TAP_ORIGINAL_HOPO
  else
    notes

/-- The instantaneous-variant event of a (valid) category. -/
def singleKind (noteCategory : Int) : TapNote :=
  if noteCategory = 1 then TAP_ORIGINAL_TAP
  else if noteCategory = 2 then TAP_ORIGINAL_GEM
  else TAP_ORIGINAL_HOPO

/-- The held-variant category tag of a (valid) category. -/
def heldKindType (noteCategory : Int) : TapNoteType :=
  if noteCategory = 1 then TapNoteType.HoldHead
  else if noteCategory = 2 then TapNoteType.GemHold
  else TapNoteType.HOPOHold

/-- The per-parse classification state of `parseNoteSection`: the
per-track sliding window (`iPrevNoteMark`, `iPrevNoteLength`,
`bPrevNoteHOPO`, used at indices 0..4), the last note's track, and the
last forced-marker / tap-marker / chord ticks. -/
structure ChartState where
  notes : NoteData
  iPrevNoteMark : Int → Int
  iPrevNoteTrack : Int
  iPrevNoteLength : Int → Int
  bPrevNoteHOPO : Int → Bool
  iLastForcedRow : Int
  iLastTapRow : Int
  iLastChordRow : Int

def initialChartState : ChartState :=
  { notes := emptyNoteData,
    iPrevNoteMark := fun _ => -1,
    iPrevNoteTrack := -1,
    iPrevNoteLength := fun _ => -1,
    bPrevNoteHOPO := fun _ => false,
    iLastForcedRow := -1,
    iLastTapRow := -1,
    iLastChordRow := -1 }

/-- Sustain-overlap correction (`NotesLoaderChart.cpp` lines 193-201):
if the previous note on this track reaches to within one tick of the
incoming mark, clear its event, shrink its stored length by
`resolution/8` short of the gap, and re-emit it with its stored
HOPO/strum category. -/
def sustainStep (resolution : Int) (st : ChartState) (t m : Int) : ChartState :=
  if st.iPrevNoteLength t + st.iPrevNoteMark t + 1 ≥ m then
    let notes1 := st.notes.SetTapNote t (BeatToNoteRow resolution (st.iPrevNoteMark t)) TAP_EMPTY
    let len2 := m - st.iPrevNoteMark t - resolution.tdiv 8
    let notes2 := addNote notes1 t (BeatToNoteRow resolution (st.iPrevNoteMark t))
        (BeatToNoteRow resolution (st.iPrevNoteMark t + len2))
        (if st.bPrevNoteHOPO t then 3 else 2)
    { st with notes := notes2, iPrevNoteLength := Function.update st.iPrevNoteLength t len2 }
  else st

/-- One iteration of the chord-breaks-HOPO loop (`NotesLoaderChart.cpp`
lines 205-214): a previous HOPO on another track within one tick of the
incoming mark is re-emitted as a gem and its HOPO flag cleared, and the
mark is recorded as the last chord row. -/
def chordSweepStep (resolution t m : Int) (s : ChartState) (k : Int) : ChartState :=
  if s.bPrevNoteHOPO k = true ∧ k ≠ t ∧ |m - s.iPrevNoteMark k| ≤ 1 then
    let notes2 := addNote s.notes k (BeatToNoteRow resolution (s.iPrevNoteMark k))
      (BeatToNoteRow resolution (s.iPrevNoteMark k + s.iPrevNoteLength k)) 2
    { s with iLastChordRow := m, notes := notes2,
             bPrevNoteHOPO := Function.update s.bPrevNoteHOPO k false }
  else s

def chordSweep (resolution t m : Int) (st : ChartState) : ChartState :=
  ([0, 1, 2, 3, 4] : List Int).foldl (chordSweepStep resolution t m) st

/-- The `ShouldBeHOPO` scan over the five tracks (`NotesLoaderChart.cpp`
lines 232-256), with the two early-exit (`break`) conditions that force
the answer to `false`. -/
def textHopoLoop (iHopoResolution : Int) (st : ChartState) (t m : Int) :
    List Int → Bool → Bool
  | [], b => b
  | k :: ks, b =>
    let b1 := if |m - st.iPrevNoteMark k| - 1 ≤ iHopoResolution ∧ t ≠ st.iPrevNoteTrack ∧
        st.iPrevNoteMark k ≠ -1 then true else b
    if |m - st.iPrevNoteMark k| ≤ 1 ∨ (|st.iLastChordRow - m| ≤ 1 ∧ st.iLastChordRow ≠ -1) then
      false
    else if st.iPrevNoteTrack ≠ -1 ∧ st.iPrevNoteMark t ≠ -1 ∧
        st.iPrevNoteMark st.iPrevNoteTrack ≠ -1 ∧
        |st.iPrevNoteMark t - st.iPrevNoteMark st.iPrevNoteTrack| ≤ 1 ∧
        st.iPrevNoteTrack ≠ t then
      false
    else
      textHopoLoop iHopoResolution st t m ks b1

def textShouldBeHOPOPre (iHopoResolution : Int) (st : ChartState) (t m : Int) : Bool :=
  textHopoLoop iHopoResolution st t m [0, 1, 2, 3, 4] false

/-- Emission of the incoming note (`NotesLoaderChart.cpp` lines
217-265): tap override when within one tick of the last tap marker,
otherwise gem or HOPO per the scan, inverted when within one tick of
the last forced marker. -/
def emitStep (resolution iHopoResolution : Int) (st : ChartState) (t m len : Int) : ChartState :=
  if |st.iLastTapRow - m| ≤ 1 ∧ st.iLastTapRow ≠ -1 then
    let notes2 := addNote st.notes t (BeatToNoteRow resolution m)
      (BeatToNoteRow resolution (m + len)) 1
    { st with notes := notes2, bPrevNoteHOPO := Function.update st.bPrevNoteHOPO t false }
  else
    let pre := textShouldBeHOPOPre iHopoResolution st t m
    let dec := if |st.iLastForcedRow - m| ≤ 1 ∧ st.iLastForcedRow ≠ -1 then !pre else pre
    let notes2 := addNote st.notes t (BeatToNoteRow resolution m)
      (BeatToNoteRow resolution (m + len)) (if dec then 3 else 2)
    { st with notes := notes2, bPrevNoteHOPO := Function.update st.bPrevNoteHOPO t dec }

/-- Processing of one note record `(t, m, len)` of a text note section:
sustain correction, chord-breaks-HOPO sweep, emission, then the
sliding-window update (`NotesLoaderChart.cpp` lines 185-269). -/
def noteStep (resolution iHopoResolution : Int) (st : ChartState) (t m len : Int) : ChartState :=
  let st2 := chordSweep resolution t m (sustainStep resolution st t m)
  let st3 := emitStep resolution iHopoResolution st2 t m len
  { st3 with iPrevNoteMark := Function.update st3.iPrevNoteMark t m,
             iPrevNoteTrack := t,
             iPrevNoteLength := Function.update st3.iPrevNoteLength t len }

/-- Retroactive forced-marker toggle (`NotesLoaderChart.cpp` lines
128-137 and 171-180): every track's event at the marked row is
re-emitted with gem and HOPO exchanged. -/
def forcedRowSweep (resolution row : Int) (notes : NoteData) : NoteData :=
  ([0, 1, 2, 3, 4] : List Int).foldl (fun nd l =>
    let tn := nd.GetTapNote l (BeatToNoteRow resolution row)
    addNote nd l (BeatToNoteRow resolution row) (BeatToNoteRow resolution row + tn.iDuration)
      (if tn.type = TapNoteType.HOPO ∨ tn.type = TapNoteType.HOPOHold then 3 else 2)) notes

def forcedMarkerStep (resolution : Int) (st : ChartState) (tick : Int) : ChartState :=
  { st with iLastForcedRow := tick, notes := forcedRowSweep resolution tick st.notes }

/-- Retroactive tap-marker reclassification (`NotesLoaderChart.cpp`
lines 141-156): every non-empty event at the marked row becomes a
tap. -/
def tapRowSweep (resolution row : Int) (notes : NoteData) : NoteData :=
  ([0, 1, 2, 3, 4] : List Int).foldl (fun nd l =>
    let tn := nd.GetTapNote l (BeatToNoteRow resolution row)
    if tn ≠ TAP_EMPTY then
      addNote nd l (BeatToNoteRow resolution row) (BeatToNoteRow resolution row + tn.iDuration) 1
    else nd) notes

def tapMarkerStep (resolution : Int) (st : ChartState) (tick : Int) : ChartState :=
  { st with iLastTapRow := tick, notes := tapRowSweep resolution tick st.notes }

/-- `atoi` on the digit prefix; accumulator form. -/
def atoiDigits : List Char → Int → Int
  | [], acc => acc
  | c :: cs, acc =>
    if c.isDigit then atoiDigits cs (acc * 10 + ((c.toNat : Int) - 48)) else acc

/-- C `atoi`: optional sign then the longest digit prefix, 0 when there
are no digits. -/
def atoi (s : String) : Int :=
  match s.toList with
  | '-' :: cs => - atoiDigits cs 0
  | '+' :: cs => atoiDigits cs 0
  | cs => atoiDigits cs 0

/-- Whitespace splitter (structural recursion over the characters; the
first argument accumulates the current word, reversed). -/
def splitWordsAux : List Char → List Char → List String
  | [], acc => if acc.isEmpty then [] else [String.mk acc.reverse]
  | c :: cs, acc =>
    if c.isWhitespace then
      if acc.isEmpty then splitWordsAux cs [] else String.mk acc.reverse :: splitWordsAux cs []
    else splitWordsAux cs (c :: acc)

/-- `getLineWords`: tabs are erased and the line split into
whitespace-separated words (erasing tabs first is equivalent to
splitting at them, tabs being whitespace). -/
def getLineWords (line : String) : List String :=
  splitWordsAux line.toList []

/-- Dispatch on one tokenized line of a note section
(`NotesLoaderChart.cpp` lines 119-270): `E *` and `N 5` are forced
markers, `E T` is the tap marker, any other `N` line is a note
record.  Out-of-range word accesses (undefined behaviour in the C++)
are modelled as the empty string. -/
def processWords (resolution iHopoResolution : Int) (st : ChartState) (ws : List String) :
    ChartState :=
  let w0 := ws.getD 0 ("")
  let w2 := ws.getD 2 ("")
  let w3 := ws.getD 3 ("")
  let st1 :=
    if w2 = "E" then
      let stA := if w3 = "*" then forcedMarkerStep resolution st (atoi w0) else st
      if w3 = "T" then tapMarkerStep resolution stA (atoi w0) else stA
    else st
  if w2 = "N" then
    let track := atoi w3
    if track = 5 then forcedMarkerStep resolution st1 (atoi w0)
    else noteStep resolution iHopoResolution st1 track (atoi w0) (atoi (ws.getD 4 ("")))
  else st1

/-- The line loop of `parseNoteSection`: stop at an empty line (no
words) or a closing brace, skip an opening brace. -/
def parseLinesAux (resolution iHopoResolution : Int) : List String → ChartState → ChartState
  | [], st => st
  | line :: rest, st =>
    let ws := getLineWords line
    if ws.isEmpty then st
    else
      let c0 := (ws.getD 0 ("")).toList.headD ' '
      if c0 = '\x7b' then parseLinesAux resolution iHopoResolution rest st
      else if c0 = '\x7d' then st
      else parseLinesAux resolution iHopoResolution rest
        (processWords resolution iHopoResolution st ws)

/-- `parseNoteSection` from `NotesLoaderChart.cpp`, on an already
line-split input. -/
def parseNoteSection (resolution iHopoResolution : Int) (lines : List String) : NoteData :=
  (parseLinesAux resolution iHopoResolution lines initialChartState).notes

/-! ## MIDI front end (`NotesLoaderMID.cpp`) -/

/-- Which HOPO rule set the song uses (Guitar Hero or Rock Band). -/
inductive HOPORules where
  | GH_HOPO_Rules
  | RB_HOPO_Rules
  | Unknown_Rules
deriving DecidableEq

/-- Whether the chart has five or six frets. -/
inductive ChartFrets where
  | FIVE_FRETS
  | SIX_FRETS
deriving DecidableEq

/-- The difficulty selector used by the MIDI path. -/
inductive Difficulty where
  | Easy
  | Medium
  | Hard
  | Challenge
deriving DecidableEq

/-- The `GuitarData` classification state threaded through
`addGHRBNote`: per-lane last-note ticks (`iPrevNoteMark`), the last
note's lane, last forced-HOPO / forced-strum / chord ticks, the
resolution parameters, the lane count, and the tap/open section
flags. -/
structure GuitarData where
  iPrevNoteMark : Int → Int
  iPrevNoteTrack : Int
  iLastForcedHOPO : Int
  iLastForcedStrum : Int
  iLastChordRow : Int
  iResolution : Int
  iHopoResolution : Int
  iCols : Int
  bInTapSection : Bool
  bInOpenSection : Bool
  hopoRules : HOPORules
  fretType : ChartFrets

def getNewGuitarData (resolution hopoResolution : Int) (rules : HOPORules)
    (fretType : ChartFrets) : GuitarData :=
  { iPrevNoteMark := fun _ => -1,
    iPrevNoteTrack := -1,
    iLastForcedHOPO := -1,
    iLastForcedStrum := -1,
    iLastChordRow := -1,
    iResolution := resolution,
    iHopoResolution := hopoResolution,
    iCols := if fretType = ChartFrets.FIVE_FRETS then 6 else 7,
    bInTapSection := false,
    bInOpenSection := false,
    hopoRules := rules,
    fretType := fretType }

/-- `placeNote` from `NotesLoaderMID.cpp`: like the text engine's
`addNote`, but an invalid category still writes (an empty event). -/
def placeNote (notes : NoteData) (track s e noteCategory : Int) : NoteData :=
  if noteCategory = 1 then
    if e > s then notes.AddHoldNote track s e TAP_ORIGINAL_HOLD_HEAD
    else notes.SetTapNote track s TAP_ORIGINAL_TAP
  else if noteCategory = 2 then
    if e > s then notes.AddHoldNote track s e TAP_ORIGINAL_GEM_HOLD
    else notes.SetTapNote track s TAP_ORIGINAL_GEM
  else if noteCategory = 3 then
    if e > s then notes.AddHoldNote track s e TAP_ORIGINAL_HOPO_HOLD
    else notes.SetTapNote track s TAP_ORIGINAL_HOPO
  else
    if e > s then notes.AddHoldNote track s e TAP_EMPTY
    else notes.SetTapNote track s TAP_EMPTY

/-- The lane scan of `checkHOPOConditions` (`NotesLoaderMID.cpp` lines
364-381): one pass accumulating the `ShouldBeHOPO` flag and the lane
and tick of the most recent previous note (first lane wins on ties). -/
def checkHOPOStep (gd : GuitarData) (iNoteTrack iNoteMark : Int) (acc : Bool × Int × Int)
    (k : Nat) : Bool × Int × Int :=
  (if iNoteMark - gd.iPrevNoteMark (k : Int) ≤ gd.iHopoResolution ∧
      iNoteTrack ≠ (k : Int) ∧ gd.iPrevNoteMark (k : Int) ≠ -1 then true else acc.1,
   if gd.iPrevNoteMark (k : Int) > acc.2.2 then ((k : Int), gd.iPrevNoteMark (k : Int))
   else acc.2)

def checkHOPOLoop (gd : GuitarData) (iNoteTrack iNoteMark : Int) : Bool × Int × Int :=
  (List.range gd.iCols.toNat).foldl (checkHOPOStep gd iNoteTrack iNoteMark) (false, -1, -1)

/-- `checkHOPOConditions` from `NotesLoaderMID.cpp`: forced-strum,
forced-HOPO and chord quick checks in that order, then the lane scan,
with the Rock-Band after-chord restriction. -/
def checkHOPOConditions (iNoteTrack iNoteMark : Int) (gd : GuitarData) : Bool :=
  if gd.iLastForcedStrum = iNoteMark then false
  else if gd.iLastForcedHOPO = iNoteMark ∧ gd.iLastForcedHOPO ≠ -1 then true
  else if gd.iLastChordRow = iNoteMark ∧ gd.iLastChordRow ≠ -1 then false
  else if gd.hopoRules = HOPORules.RB_HOPO_Rules ∧
      (checkHOPOLoop gd iNoteTrack iNoteMark).2.1 ≠ -1 ∧
      gd.iPrevNoteMark iNoteTrack ≠ -1 ∧ (checkHOPOLoop gd iNoteTrack iNoteMark).2.2 ≠ -1 ∧
      gd.iPrevNoteMark iNoteTrack = (checkHOPOLoop gd iNoteTrack iNoteMark).2.2 then
    false
  else (checkHOPOLoop gd iNoteTrack iNoteMark).1

/-- The held-end computation of `addGHRBNote`: a note is held only when
its duration exceeds half a beat, and a held end is pulled back an
eighth of a beat. -/
def midiRealEnd (resolution s e : Int) : Int :=
  if e - s > resolution.tdiv 2 then e - resolution.tdiv 8 else s

/-- Whether a timeline event is a HOPO or held HOPO (the `wasHopo`
tests in the loaders). -/
def tapIsHopo (tn : TapNote) : Bool :=
  match tn.type with
  | TapNoteType.HOPO => true
  | TapNoteType.HOPOHold => true
  | _ => false

/-- The row snapshot loop of `addGHRBNote` (`NotesLoaderMID.cpp` lines
422-429): whether any lane has an event at the row, and the highest
occupied lane (`-1` when none). -/
def rowScanStep (notes : NoteData) (startRow : Int) (acc : Bool × Int) (i : Nat) :
    Bool × Int :=
  if notes.GetTapNote (i : Int) startRow ≠ TAP_EMPTY then
    (true, if (i : Int) > acc.2 then (i : Int) else acc.2)
  else acc

def rowScan (notes : NoteData) (cols startRow : Int) : Bool × Int :=
  (List.range cols.toNat).foldl (rowScanStep notes startRow) (false, -1)

/-- The lane list `0, 1, ..., cols-1` as integers. -/
def colList (cols : Int) : List Int :=
  (List.range cols.toNat).map (fun k => (k : Int))

/-- The descending sweep of the forced-HOPO marker branch
(`NotesLoaderMID.cpp` lines 437-451): the first occupied lane found
(the highest) is re-placed as a HOPO, every other occupied lane's event
is cleared.  `taps` is the snapshot taken before any write. -/
def forcedHopoSweep (taps : Int → TapNote) (startRow : Int) :
    List Int → Bool → NoteData → NoteData
  | [], _, nd => nd
  | i :: rest, foundHighest, nd =>
    if taps i = TAP_EMPTY then forcedHopoSweep taps startRow rest foundHighest nd
    else if foundHighest then
      forcedHopoSweep taps startRow rest foundHighest (nd.SetTapNote i startRow TAP_EMPTY)
    else
      forcedHopoSweep taps startRow rest true
        (placeNote nd i startRow (startRow + (taps i).iDuration) 3)

/-- The ascending sweep of the forced-strum marker branch
(`NotesLoaderMID.cpp` lines 459-467): every occupied lane's event at
the row is re-placed as a gem. -/
def forcedStrumSweep (taps : Int → TapNote) (startRow : Int) (l : List Int)
    (nd : NoteData) : NoteData :=
  l.foldl (fun acc i =>
    if taps i = TAP_EMPTY then acc
    else placeNote acc i startRow (startRow + (taps i).iDuration) 2) nd

/-- `addGHRBNote` from `NotesLoaderMID.cpp`: processes one candidate
`(colIn, start, e)` against the classification state, returning the
updated timeline and state. -/
def addGHRBNote (notes : NoteData) (colIn start e : Int) (gd : GuitarData) :
    NoteData × GuitarData :=
  let realEnd := midiRealEnd gd.iResolution start e
  let col := if gd.iCols = 7 ∧ colIn < 7 then colIn - 1 else colIn
  let startRow := BeatToNoteRow gd.iResolution start
  let endRow := BeatToNoteRow gd.iResolution realEnd
  let taps : Int → TapNote := fun i => notes.GetTapNote i startRow
  let scan := rowScan notes gd.iCols startRow
  let isChordRow := scan.1
  let highestNote := scan.2
  if (col = 5 ∧ gd.iCols = 6) ∨ (col = 7 ∧ gd.iCols = 7) then
    let notes2 :=
      if isChordRow then forcedHopoSweep taps startRow (colList gd.iCols).reverse false notes
      else notes
    (notes2, { gd with iLastForcedHOPO := start })
  else if (col = 6 ∧ gd.iCols = 6) ∨ (col = 8 ∧ gd.iCols = 7) then
    let notes2 :=
      if isChordRow then forcedStrumSweep taps startRow (colList gd.iCols) notes
      else notes
    (notes2, { gd with iLastForcedStrum := start })
  else
    let col2 := if gd.bInOpenSection = true ∨ (col = -1 ∧ gd.iCols = 7) then gd.iCols - 1 else col
    if gd.bInTapSection then
      (placeNote notes col2 startRow endRow 1,
       { gd with iPrevNoteMark := Function.update gd.iPrevNoteMark col2 start,
                 iPrevNoteTrack := col2 })
    else if isChordRow then
      let wasHopo := tapIsHopo (taps highestNote)
      if start = gd.iLastForcedHOPO then
        if col2 < highestNote then (notes, gd)
        else
          let notes2 := notes.SetTapNote highestNote startRow TAP_EMPTY
          let notes3 := placeNote notes2 col2 startRow endRow (if wasHopo then 3 else 2)
          (notes3, { gd with iLastChordRow := start,
                             iPrevNoteMark := Function.update gd.iPrevNoteMark col2 start,
                             iPrevNoteTrack := col2 })
      else
        let notes2 :=
          if wasHopo then
            placeNote notes highestNote startRow (startRow + (taps highestNote).iDuration) 2
          else notes
        let notes3 := placeNote notes2 col2 startRow endRow 2
        (notes3, { gd with iLastChordRow := start,
                           iPrevNoteMark := Function.update gd.iPrevNoteMark col2 start,
                           iPrevNoteTrack := col2 })
    else
      let isHopo := checkHOPOConditions col2 start gd
      (placeNote notes col2 startRow endRow (if isHopo then 3 else 2),
       { gd with iPrevNoteMark := Function.update gd.iPrevNoteMark col2 start,
                 iPrevNoteTrack := col2 })

/-- `translateSysex` from `NotesLoaderMID.cpp`: interpret a
System-Exclusive payload (bytes modelled as unsigned values, accessed
with default 0).  Returns -1 (no effect), 1/2 (tap start/stop) or 3/4
(open start/stop). -/
def sysexTrailer (b6 b7 ret : Int) : Int :=
  if b7 = 0xF7 then
    if b6 = 0x00 then ret + 1
    else if b6 ≠ 0x01 then -1
    else ret
  else ret

def translateSysex (pData : List Int) (diff : Difficulty) : Int :=
  if pData.getD 0 0 ≠ 0x50 then -1
  else if pData.getD 1 0 ≠ 0x53 then -1
  else if pData.getD 2 0 ≠ 0x00 then -1
  else if pData.getD 3 0 ≠ 0x00 then -1
  else if pData.getD 4 0 = 0xFF ∧ pData.getD 5 0 = 0x04 then
    sysexTrailer (pData.getD 6 0) (pData.getD 7 0) 1
  else if pData.getD 5 0 = 0x01 ∧
      ((pData.getD 4 0 = 0x00 ∧ diff = Difficulty.Easy) ∨
       (pData.getD 4 0 = 0x01 ∧ diff = Difficulty.Medium) ∨
       (pData.getD 4 0 = 0x02 ∧ diff = Difficulty.Hard) ∨
       (pData.getD 4 0 = 0x03 ∧ diff = Difficulty.Challenge)) then
    sysexTrailer (pData.getD 6 0) (pData.getD 7 0) 3
  else -1

/-- The System-Exclusive dispatch of `getGHRBNotesFromTrack`
(`NotesLoaderMID.cpp` lines 571-582): results 3/4 toggle the
tap-section flag, results 1/2 the open-section flag, anything else has
no effect. -/
def applySysex (gd : GuitarData) (type : Int) : GuitarData :=
  if type > 2 then { gd with bInTapSection := type % 2 = 1 }
  else if type > 0 then { gd with bInOpenSection := type % 2 = 1 }
  else gd

/-! ## Basic timeline lemmas -/

theorem GetTapNote_SetTapNote (nd : NoteData) (tr r : Int) (tn : TapNote) (tr2 r2 : Int) :
    (nd.SetTapNote tr r tn).GetTapNote tr2 r2 =
      if tr2 = tr ∧ r2 = r then tn else nd.GetTapNote tr2 r2 := rfl

theorem addNote_GetTapNote_other (nd : NoteData) (tr s e c tr2 r2 : Int)
    (h : tr2 ≠ tr ∨ r2 ≠ s) :
    (addNote nd tr s e c).GetTapNote tr2 r2 = nd.GetTapNote tr2 r2 := by
  have hne : ¬(tr2 = tr ∧ r2 = s) := by tauto
  unfold addNote NoteData.AddHoldNote
  split_ifs <;> simp [GetTapNote_SetTapNote, hne]

theorem addNote_GetTapNote_self (nd : NoteData) (tr s e c : Int)
    (hc : c = 1 ∨ c = 2 ∨ c = 3) :
    (addNote nd tr s e c).GetTapNote tr s =
      if e > s then ⟨heldKindType c, e - s⟩ else singleKind c := by
  rcases hc with rfl | rfl | rfl <;>
    · unfold addNote NoteData.AddHoldNote heldKindType singleKind
      norm_num
      split_ifs <;>
        simp [GetTapNote_SetTapNote, TAP_ORIGINAL_HOLD_HEAD, TAP_ORIGINAL_GEM_HOLD,
          TAP_ORIGINAL_HOPO_HOLD, TAP_ORIGINAL_TAP, TAP_ORIGINAL_GEM, TAP_ORIGINAL_HOPO]

theorem addNote_invalid (nd : NoteData) (tr s e c : Int)
    (hc : ¬(c = 1 ∨ c = 2 ∨ c = 3)) :
    addNote nd tr s e c = nd := by
  unfold addNote
  split_ifs <;> tauto

theorem placeNote_GetTapNote_other (nd : NoteData) (tr s e c tr2 r2 : Int)
    (h : tr2 ≠ tr ∨ r2 ≠ s) :
    (placeNote nd tr s e c).GetTapNote tr2 r2 = nd.GetTapNote tr2 r2 := by
  have hne : ¬(tr2 = tr ∧ r2 = s) := by tauto
  unfold placeNote NoteData.AddHoldNote
  split_ifs <;> simp [GetTapNote_SetTapNote, hne]

theorem placeNote_GetTapNote_self (nd : NoteData) (tr s e c : Int)
    (hc : c = 1 ∨ c = 2 ∨ c = 3) :
    (placeNote nd tr s e c).GetTapNote tr s =
      if e > s then ⟨heldKindType c, e - s⟩ else singleKind c := by
  rcases hc with rfl | rfl | rfl <;>
    · unfold placeNote NoteData.AddHoldNote heldKindType singleKind
      norm_num
      split_ifs <;>
        simp [GetTapNote_SetTapNote, TAP_ORIGINAL_HOLD_HEAD, TAP_ORIGINAL_GEM_HOLD,
          TAP_ORIGINAL_HOPO_HOLD, TAP_ORIGINAL_TAP, TAP_ORIGINAL_GEM, TAP_ORIGINAL_HOPO]

theorem placeNote_GetTapNote_self_invalid (nd : NoteData) (tr s e c : Int)
    (hc : ¬(c = 1 ∨ c = 2 ∨ c = 3)) :
    (placeNote nd tr s e c).GetTapNote tr s =
      if e > s then ⟨TapNoteType.Empty, e - s⟩ else TAP_EMPTY := by
  have h1 : c ≠ 1 := by tauto
  have h2 : c ≠ 2 := by tauto
  have h3 : c ≠ 3 := by tauto
  unfold placeNote NoteData.AddHoldNote
  simp only [h1, h2, h3, if_false]
  split_ifs <;> simp [GetTapNote_SetTapNote, TAP_EMPTY]

theorem tdiv8_le_tdiv2 (res : Int) (h : 0 ≤ res) : res.tdiv 8 ≤ res.tdiv 2 := by
  obtain ⟨n, rfl⟩ := Int.eq_ofNat_of_zero_le h
  show ((n / 8 : Nat) : Int) ≤ ((n / 2 : Nat) : Int)
  exact_mod_cast Nat.div_le_div_left (by norm_num) (by norm_num)

/-- A sample classification state used by witnesses. -/
def gdSample : GuitarData :=
  getNewGuitarData 192 48 HOPORules.GH_HOPO_Rules ChartFrets.FIVE_FRETS

/-- C2: every text note emitted with positive length is the held
variant of its category with end row strictly above its start row; a
MIDI candidate is emitted held exactly when `e - s > resolution/2`, its
held end shortened by `resolution/8`, and is instantaneous
otherwise. -/
theorem heldVariantThresholds (nd nd2 : NoteData) (t m len cat res s e col c2 : Int)
    (hlen : 0 < len) (hcat : cat = 1 ∨ cat = 2 ∨ cat = 3)
    (hres : 0 ≤ res) (hc2 : c2 = 1 ∨ c2 = 2 ∨ c2 = 3) :
    ((addNote nd t m (m + len) cat).GetTapNote t m = ⟨heldKindType cat, len⟩ ∧ m < m + len)
    ∧ (res.tdiv 2 < e - s →
        (placeNote nd2 col s (midiRealEnd res s e) c2).GetTapNote col s =
          ⟨heldKindType c2, e - res.tdiv 8 - s⟩ ∧
        s < midiRealEnd res s e ∧ midiRealEnd res s e = e - res.tdiv 8)
    ∧ (¬(res.tdiv 2 < e - s) →
        (placeNote nd2 col s (midiRealEnd res s e) c2).GetTapNote col s = singleKind c2 ∧
        midiRealEnd res s e = s) := by
  refine ⟨⟨?_, by omega⟩, ?_, ?_⟩
  · rw [addNote_GetTapNote_self nd t m (m + len) cat hcat, if_pos (by omega)]
    simp [TapNote.mk.injEq]
  · intro hheld
    have hmre : midiRealEnd res s e = e - res.tdiv 8 := by
      unfold midiRealEnd; rw [if_pos hheld]
    have hd := tdiv8_le_tdiv2 res hres
    have hlt : s < e - res.tdiv 8 := by omega
    rw [hmre, placeNote_GetTapNote_self nd2 col s (e - res.tdiv 8) c2 hc2, if_pos hlt]
    exact ⟨rfl, hlt, rfl⟩
  · intro hnot
    have hmre : midiRealEnd res s e = s := by
      unfold midiRealEnd; rw [if_neg hnot]
    rw [hmre, placeNote_GetTapNote_self nd2 col s s c2 hc2, if_neg (lt_irrefl s)]
    exact ⟨rfl, rfl⟩

theorem heldVariantThresholds_witness :
    (((addNote emptyNoteData 0 0 (0 + 10) 1).GetTapNote 0 0 = ⟨heldKindType 1, 10⟩ ∧
        (0 : Int) < 0 + 10)
    ∧ ((192 : Int).tdiv 2 < 100 - 0 →
        (placeNote emptyNoteData 2 0 (midiRealEnd 192 0 100) 3).GetTapNote 2 0 =
          ⟨heldKindType 3, 100 - (192 : Int).tdiv 8 - 0⟩ ∧
        (0 : Int) < midiRealEnd 192 0 100 ∧ midiRealEnd 192 0 100 = 100 - (192 : Int).tdiv 8)
    ∧ (¬((192 : Int).tdiv 2 < 100 - 0) →
        (placeNote emptyNoteData 2 0 (midiRealEnd 192 0 100) 3).GetTapNote 2 0 = singleKind 3 ∧
        midiRealEnd 192 0 100 = 0)) :=
  heldVariantThresholds emptyNoteData emptyNoteData 0 0 10 1 192 0 100 2 3
    (by norm_num) (by norm_num) (by norm_num) (by norm_num)

/-- C10: the text engine's `addNote` with a category outside 1..3
returns the timeline unchanged, while the MIDI engine's `placeNote`
writes an empty event at the position. -/
theorem addNoteInvalidCategory (nd : NoteData) (track s e c : Int)
    (hc : c ≠ 1 ∧ c ≠ 2 ∧ c ≠ 3) :
    addNote nd track s e c = nd ∧
    ((placeNote nd track s e c).GetTapNote track s).type = TapNoteType.Empty := by
  refine ⟨addNote_invalid nd track s e c (by tauto), ?_⟩
  rw [placeNote_GetTapNote_self_invalid nd track s e c (by tauto)]
  split_ifs <;> rfl

theorem addNoteInvalidCategory_witness :
    ((0 : Int) ≠ 1 ∧ (0 : Int) ≠ 2 ∧ (0 : Int) ≠ 3) ∧
    (addNote emptyNoteData 1 2 3 0 = emptyNoteData ∧
      ((placeNote emptyNoteData 1 2 3 0).GetTapNote 1 2).type = TapNoteType.Empty) :=
  ⟨by decide, addNoteInvalidCategory emptyNoteData 1 2 3 0 (by decide)⟩

/-- C9 counterexample: the payload `50 53 00 00 03 01 42 42` has a
valid header and open/Expert type bytes but a trailer matching neither
the on pattern `01 F7` nor the off pattern `00 F7`; `translateSysex`
nevertheless returns 3 (open start), not the no-effect value -1. -/
theorem sysexRejection_counterexample :
    translateSysex [0x50, 0x53, 0x00, 0x00, 0x03, 0x01, 0x42, 0x42] Difficulty.Challenge = 3 ∧
    ¬(([0x50, 0x53, 0x00, 0x00, 0x03, 0x01, 0x42, 0x42] : List Int).getD 6 0 = 0x00 ∧
        ([0x50, 0x53, 0x00, 0x00, 0x03, 0x01, 0x42, 0x42] : List Int).getD 7 0 = 0xF7) ∧
    ¬(([0x50, 0x53, 0x00, 0x00, 0x03, 0x01, 0x42, 0x42] : List Int).getD 6 0 = 0x01 ∧
        ([0x50, 0x53, 0x00, 0x00, 0x03, 0x01, 0x42, 0x42] : List Int).getD 7 0 = 0xF7) ∧
    ((3 : Int) ≠ -1) := by
  refine ⟨by decide, by decide, by decide, by decide⟩

/-- C9 (amended): a payload whose first four bytes differ anywhere from
`50 53 00 00` yields -1; so does a payload whose type/difficulty bytes
match neither the tap indicator nor the open indicator for the current
difficulty.  The trailer, however, is only validated when the final
byte is `F7`.  A -1 result leaves the tap/open section flags
unchanged. -/
theorem sysexRejection (p : List Int) (diff : Difficulty) (gd : GuitarData) :
    ((p.getD 0 0 ≠ 0x50 ∨ p.getD 1 0 ≠ 0x53 ∨ p.getD 2 0 ≠ 0x00 ∨ p.getD 3 0 ≠ 0x00) →
      translateSysex p diff = -1)
    ∧ (¬(p.getD 4 0 = 0xFF ∧ p.getD 5 0 = 0x04) →
       ¬(p.getD 5 0 = 0x01 ∧
          ((p.getD 4 0 = 0x00 ∧ diff = Difficulty.Easy) ∨
           (p.getD 4 0 = 0x01 ∧ diff = Difficulty.Medium) ∨
           (p.getD 4 0 = 0x02 ∧ diff = Difficulty.Hard) ∨
           (p.getD 4 0 = 0x03 ∧ diff = Difficulty.Challenge))) →
      translateSysex p diff = -1)
    ∧ applySysex gd (-1) = gd := by
  refine ⟨?_, ?_, ?_⟩
  · intro h
    unfold translateSysex
    split_ifs <;> first | rfl | tauto
  · intro h1 h2
    unfold translateSysex
    split_ifs <;> first | rfl | tauto
  · unfold applySysex
    norm_num

theorem sysexRejection_witness :
    translateSysex [0x51, 0x53, 0x00, 0x00, 0xFF, 0x04, 0x01, 0xF7] Difficulty.Easy = -1 ∧
    translateSysex [0x50, 0x53, 0x00, 0x00, 0x07, 0x07, 0x01, 0xF7] Difficulty.Easy = -1 ∧
    applySysex gdSample (-1) = gdSample :=
  ⟨(sysexRejection [0x51, 0x53, 0x00, 0x00, 0xFF, 0x04, 0x01, 0xF7] Difficulty.Easy gdSample).1
      (by decide),
   (sysexRejection [0x50, 0x53, 0x00, 0x00, 0x07, 0x07, 0x01, 0xF7] Difficulty.Easy gdSample).2.1
      (by decide) (by decide),
   (sysexRejection [] Difficulty.Easy gdSample).2.2⟩

/-- C8 counterexample: parsing `0 = N 0 0` then `96 = N 1 0` with
resolution 192 and HOPO threshold 48 does not classify the tick-96 note
as a HOPO: the tick distance 96 satisfies `|96 - 0| - 1 = 95 > 48`, so
the scan never fires. -/
theorem textScenarioHopo_counterexample :
    ((parseNoteSection 192 48 ["0 = N 0 0", "96 = N 1 0"]).GetTapNote 1 96).type ≠
      TapNoteType.HOPO ∧
    ((parseNoteSection 192 48 ["0 = N 0 0", "96 = N 1 0"]).GetTapNote 1 96).type ≠
      TapNoteType.HOPOHold := by
  exact ⟨by decide, by decide⟩

/-- C8 (amended): the same concrete scenario produces a plain gem
(strum) at tick 96 on track 1, because 96 ticks exceeds the threshold
48 (the scan requires `|t2 - t1| - 1 ≤ threshold`); the note would be a
HOPO only for a threshold of at least 95. -/
theorem textScenarioGem :
    (parseNoteSection 192 48 ["0 = N 0 0", "96 = N 1 0"]).GetTapNote 1 96 =
      ⟨TapNoteType.Gem, 0⟩ := by
  decide

/-- C1 counterexample: with resolution 4 (so `resolution/8 = 0`) the
overlapping same-track notes at ticks 0 (length 10) and 5 leave the
corrected hold with duration 5, whose held end `0 + 5` equals the new
note's tick 5 instead of lying strictly below it. -/
theorem sustainOverlapCorrection_counterexample :
    (parseNoteSection 4 1 ["0 = N 0 10", "5 = N 0 0"]).GetTapNote 0 0 =
      ⟨TapNoteType.GemHold, 5⟩ ∧ ¬((0 : Int) + 5 < 5) := by
  exact ⟨by decide, by decide⟩

/-! ## Text-engine state lemmas -/

theorem sustainStep_iPrevNoteMark (res : Int) (st : ChartState) (t m : Int) :
    (sustainStep res st t m).iPrevNoteMark = st.iPrevNoteMark := by
  unfold sustainStep; split <;> rfl

theorem sustainStep_iPrevNoteTrack (res : Int) (st : ChartState) (t m : Int) :
    (sustainStep res st t m).iPrevNoteTrack = st.iPrevNoteTrack := by
  unfold sustainStep; split <;> rfl

theorem sustainStep_bPrevNoteHOPO (res : Int) (st : ChartState) (t m : Int) :
    (sustainStep res st t m).bPrevNoteHOPO = st.bPrevNoteHOPO := by
  unfold sustainStep; split <;> rfl

theorem sustainStep_iLastForcedRow (res : Int) (st : ChartState) (t m : Int) :
    (sustainStep res st t m).iLastForcedRow = st.iLastForcedRow := by
  unfold sustainStep; split <;> rfl

theorem sustainStep_iLastTapRow (res : Int) (st : ChartState) (t m : Int) :
    (sustainStep res st t m).iLastTapRow = st.iLastTapRow := by
  unfold sustainStep; split <;> rfl

theorem sustainStep_iLastChordRow (res : Int) (st : ChartState) (t m : Int) :
    (sustainStep res st t m).iLastChordRow = st.iLastChordRow := by
  unfold sustainStep; split <;> rfl

theorem sustainStep_iPrevNoteLength_ne (res : Int) (st : ChartState) (t m k : Int)
    (h : k ≠ t) :
    (sustainStep res st t m).iPrevNoteLength k = st.iPrevNoteLength k := by
  unfold sustainStep; split
  · simp [Function.update_noteq h]
  · rfl

theorem sustainStep_notes_other (res : Int) (st : ChartState) (t m tr r : Int)
    (h : tr ≠ t ∨ r ≠ st.iPrevNoteMark t) :
    (sustainStep res st t m).notes.GetTapNote tr r = st.notes.GetTapNote tr r := by
  have hne : ¬(tr = t ∧ r = st.iPrevNoteMark t) := by tauto
  unfold sustainStep; split
  · simp only [BeatToNoteRow]
    rw [addNote_GetTapNote_other _ _ _ _ _ _ _ h, GetTapNote_SetTapNote]
    simp [hne]
  · rfl

theorem chordSweepStep_iPrevNoteMark (res t m : Int) (s : ChartState) (k : Int) :
    (chordSweepStep res t m s k).iPrevNoteMark = s.iPrevNoteMark := by
  unfold chordSweepStep; split <;> rfl

theorem chordSweepStep_iPrevNoteLength (res t m : Int) (s : ChartState) (k : Int) :
    (chordSweepStep res t m s k).iPrevNoteLength = s.iPrevNoteLength := by
  unfold chordSweepStep; split <;> rfl

theorem chordSweepStep_iPrevNoteTrack (res t m : Int) (s : ChartState) (k : Int) :
    (chordSweepStep res t m s k).iPrevNoteTrack = s.iPrevNoteTrack := by
  unfold chordSweepStep; split <;> rfl

theorem chordSweepStep_iLastForcedRow (res t m : Int) (s : ChartState) (k : Int) :
    (chordSweepStep res t m s k).iLastForcedRow = s.iLastForcedRow := by
  unfold chordSweepStep; split <;> rfl

theorem chordSweepStep_iLastTapRow (res t m : Int) (s : ChartState) (k : Int) :
    (chordSweepStep res t m s k).iLastTapRow = s.iLastTapRow := by
  unfold chordSweepStep; split <;> rfl

theorem chordSweepStep_iLastChordRow (res t m : Int) (s : ChartState) (k : Int) :
    (chordSweepStep res t m s k).iLastChordRow = s.iLastChordRow ∨
    (chordSweepStep res t m s k).iLastChordRow = m := by
  unfold chordSweepStep; split
  · right; rfl
  · left; rfl

theorem chordSweepStep_notes_ne (res t m : Int) (s : ChartState) (k tr r : Int)
    (h : tr ≠ k) :
    (chordSweepStep res t m s k).notes.GetTapNote tr r = s.notes.GetTapNote tr r := by
  unfold chordSweepStep; split
  · exact addNote_GetTapNote_other _ _ _ _ _ _ _ (Or.inl h)
  · rfl

theorem chordSweepStep_notes_track_t (res t m : Int) (s : ChartState) (k r : Int) :
    (chordSweepStep res t m s k).notes.GetTapNote t r = s.notes.GetTapNote t r := by
  by_cases hk : t = k
  · subst hk
    unfold chordSweepStep; split
    · rename_i hcond
      exact absurd rfl hcond.2.1
    · rfl
  · exact chordSweepStep_notes_ne res t m s k t r hk

theorem chordSweepStep_bPrevNoteHOPO_ne (res t m : Int) (s : ChartState) (k j : Int)
    (h : j ≠ k) :
    (chordSweepStep res t m s k).bPrevNoteHOPO j = s.bPrevNoteHOPO j := by
  unfold chordSweepStep; split
  · simp [Function.update_noteq h]
  · rfl

theorem chordFold_iPrevNoteMark (res t m : Int) (l : List Int) (s : ChartState) :
    (l.foldl (chordSweepStep res t m) s).iPrevNoteMark = s.iPrevNoteMark := by
  induction l generalizing s with
  | nil => rfl
  | cons k ks ih => rw [List.foldl_cons, ih, chordSweepStep_iPrevNoteMark]

theorem chordFold_iPrevNoteLength (res t m : Int) (l : List Int) (s : ChartState) :
    (l.foldl (chordSweepStep res t m) s).iPrevNoteLength = s.iPrevNoteLength := by
  induction l generalizing s with
  | nil => rfl
  | cons k ks ih => rw [List.foldl_cons, ih, chordSweepStep_iPrevNoteLength]

theorem chordFold_iPrevNoteTrack (res t m : Int) (l : List Int) (s : ChartState) :
    (l.foldl (chordSweepStep res t m) s).iPrevNoteTrack = s.iPrevNoteTrack := by
  induction l generalizing s with
  | nil => rfl
  | cons k ks ih => rw [List.foldl_cons, ih, chordSweepStep_iPrevNoteTrack]

theorem chordFold_iLastForcedRow (res t m : Int) (l : List Int) (s : ChartState) :
    (l.foldl (chordSweepStep res t m) s).iLastForcedRow = s.iLastForcedRow := by
  induction l generalizing s with
  | nil => rfl
  | cons k ks ih => rw [List.foldl_cons, ih, chordSweepStep_iLastForcedRow]

theorem chordFold_iLastTapRow (res t m : Int) (l : List Int) (s : ChartState) :
    (l.foldl (chordSweepStep res t m) s).iLastTapRow = s.iLastTapRow := by
  induction l generalizing s with
  | nil => rfl
  | cons k ks ih => rw [List.foldl_cons, ih, chordSweepStep_iLastTapRow]

theorem chordFold_iLastChordRow (res t m : Int) (l : List Int) (s : ChartState) :
    (l.foldl (chordSweepStep res t m) s).iLastChordRow = s.iLastChordRow ∨
    (l.foldl (chordSweepStep res t m) s).iLastChordRow = m := by
  induction l generalizing s with
  | nil => left; rfl
  | cons k ks ih =>
    rw [List.foldl_cons]
    rcases ih (chordSweepStep res t m s k) with h | h
    · rcases chordSweepStep_iLastChordRow res t m s k with h2 | h2
      · left; rw [h, h2]
      · right; rw [h, h2]
    · right; exact h

theorem chordFold_notes_track_t (res t m : Int) (l : List Int) (s : ChartState) (r : Int) :
    (l.foldl (chordSweepStep res t m) s).notes.GetTapNote t r = s.notes.GetTapNote t r := by
  induction l generalizing s with
  | nil => rfl
  | cons k ks ih =>
    rw [List.foldl_cons, ih, chordSweepStep_notes_track_t]

theorem chordSweepStep_noFire (res t m : Int) (s : ChartState) (k : Int)
    (h : s.bPrevNoteHOPO k = false) :
    chordSweepStep res t m s k = s := by
  unfold chordSweepStep
  rw [if_neg]
  simp [h]

theorem chordFold_keepFalse (res t m A : Int) (l : List Int) (s : ChartState) (r : Int)
    (hH : s.bPrevNoteHOPO A = false) :
    (l.foldl (chordSweepStep res t m) s).bPrevNoteHOPO A = false ∧
    (l.foldl (chordSweepStep res t m) s).notes.GetTapNote A r = s.notes.GetTapNote A r := by
  induction l generalizing s with
  | nil => exact ⟨hH, rfl⟩
  | cons k ks ih =>
    rw [List.foldl_cons]
    by_cases hk : k = A
    · subst hk
      rw [chordSweepStep_noFire res t m s k hH]
      exact ih s hH
    · have hne : A ≠ k := fun he => hk he.symm
      have h1 : (chordSweepStep res t m s k).bPrevNoteHOPO A = false := by
        rw [chordSweepStep_bPrevNoteHOPO_ne res t m s k A hne]; exact hH
      have h2 := ih (chordSweepStep res t m s k) h1
      exact ⟨h2.1, by rw [h2.2, chordSweepStep_notes_ne res t m s k A r hne]⟩

theorem chordSweepStep_fire (res t m : Int) (s : ChartState) (k : Int)
    (hcond : s.bPrevNoteHOPO k = true ∧ k ≠ t ∧ |m - s.iPrevNoteMark k| ≤ 1) :
    (chordSweepStep res t m s k).bPrevNoteHOPO k = false ∧
    (chordSweepStep res t m s k).iLastChordRow = m ∧
    (chordSweepStep res t m s k).notes.GetTapNote k (s.iPrevNoteMark k) =
      (if 0 < s.iPrevNoteLength k then ⟨TapNoteType.GemHold, s.iPrevNoteLength k⟩
       else (⟨TapNoteType.Gem, 0⟩ : TapNote)) := by
  unfold chordSweepStep
  rw [if_pos hcond]
  refine ⟨by simp, rfl, ?_⟩
  show (addNote s.notes k (BeatToNoteRow res (s.iPrevNoteMark k))
      (BeatToNoteRow res (s.iPrevNoteMark k + s.iPrevNoteLength k)) 2).GetTapNote k
        (s.iPrevNoteMark k) = _
  simp only [BeatToNoteRow]
  rw [addNote_GetTapNote_self _ _ _ _ 2 (by norm_num)]
  by_cases hpos : 0 < s.iPrevNoteLength k
  · rw [if_pos (by omega), if_pos hpos]
    norm_num [heldKindType, TapNote.mk.injEq]
  · rw [if_neg (by omega), if_neg hpos]
    norm_num [singleKind, TAP_ORIGINAL_GEM]

theorem chordFold_fires (res t m A : Int) (l : List Int) (s : ChartState)
    (hmem : A ∈ l) (hH : s.bPrevNoteHOPO A = true) (hAt : A ≠ t)
    (hnear : |m - s.iPrevNoteMark A| ≤ 1) :
    (l.foldl (chordSweepStep res t m) s).bPrevNoteHOPO A = false ∧
    (l.foldl (chordSweepStep res t m) s).iLastChordRow = m ∧
    (l.foldl (chordSweepStep res t m) s).notes.GetTapNote A (s.iPrevNoteMark A) =
      (if 0 < s.iPrevNoteLength A then ⟨TapNoteType.GemHold, s.iPrevNoteLength A⟩
       else (⟨TapNoteType.Gem, 0⟩ : TapNote)) := by
  induction l generalizing s with
  | nil => cases hmem
  | cons k ks ih =>
    rw [List.foldl_cons]
    by_cases hk : k = A
    · subst hk
      have hf := chordSweepStep_fire res t m s k ⟨hH, hAt, hnear⟩
      have hkf := chordFold_keepFalse res t m k ks (chordSweepStep res t m s k)
        (s.iPrevNoteMark k) hf.1
      refine ⟨hkf.1, ?_, by rw [hkf.2, hf.2.2]⟩
      rcases chordFold_iLastChordRow res t m ks (chordSweepStep res t m s k) with h | h
      · rw [h, hf.2.1]
      · exact h
    · have hmem2 : A ∈ ks := by
        rcases List.mem_cons.mp hmem with h | h
        · exact absurd h.symm hk
        · exact h
      have hne : A ≠ k := fun he => hk he.symm
      have h1 : (chordSweepStep res t m s k).bPrevNoteHOPO A = true := by
        rw [chordSweepStep_bPrevNoteHOPO_ne res t m s k A hne]; exact hH
      have h2 : (chordSweepStep res t m s k).iPrevNoteMark A = s.iPrevNoteMark A := by
        rw [chordSweepStep_iPrevNoteMark]
      have h3 := ih (chordSweepStep res t m s k) hmem2 h1 (by rw [h2]; exact hnear)
      refine ⟨h3.1, h3.2.1, ?_⟩
      have h4 := h3.2.2
      rw [h2, chordSweepStep_iPrevNoteLength] at h4
      exact h4

theorem emitStep_iPrevNoteMark (res hr : Int) (st : ChartState) (t m len : Int) :
    (emitStep res hr st t m len).iPrevNoteMark = st.iPrevNoteMark := by
  unfold emitStep; split <;> rfl

theorem emitStep_iPrevNoteLength (res hr : Int) (st : ChartState) (t m len : Int) :
    (emitStep res hr st t m len).iPrevNoteLength = st.iPrevNoteLength := by
  unfold emitStep; split <;> rfl

theorem emitStep_iPrevNoteTrack (res hr : Int) (st : ChartState) (t m len : Int) :
    (emitStep res hr st t m len).iPrevNoteTrack = st.iPrevNoteTrack := by
  unfold emitStep; split <;> rfl

theorem emitStep_iLastForcedRow (res hr : Int) (st : ChartState) (t m len : Int) :
    (emitStep res hr st t m len).iLastForcedRow = st.iLastForcedRow := by
  unfold emitStep; split <;> rfl

theorem emitStep_iLastTapRow (res hr : Int) (st : ChartState) (t m len : Int) :
    (emitStep res hr st t m len).iLastTapRow = st.iLastTapRow := by
  unfold emitStep; split <;> rfl

theorem emitStep_iLastChordRow (res hr : Int) (st : ChartState) (t m len : Int) :
    (emitStep res hr st t m len).iLastChordRow = st.iLastChordRow := by
  unfold emitStep; split <;> rfl

theorem emitStep_notes_other (res hr : Int) (st : ChartState) (t m len tr r : Int)
    (h : tr ≠ t ∨ r ≠ m) :
    (emitStep res hr st t m len).notes.GetTapNote tr r = st.notes.GetTapNote tr r := by
  unfold emitStep; split
  · exact addNote_GetTapNote_other _ _ _ _ _ _ _ h
  · exact addNote_GetTapNote_other _ _ _ _ _ _ _ h

theorem emitStep_bPrevNoteHOPO_ne (res hr : Int) (st : ChartState) (t m len j : Int)
    (h : j ≠ t) :
    (emitStep res hr st t m len).bPrevNoteHOPO j = st.bPrevNoteHOPO j := by
  unfold emitStep; split
  · simp [Function.update_noteq h]
  · simp [Function.update_noteq h]

theorem noteStep_notes (res hr : Int) (st : ChartState) (t m len : Int) :
    (noteStep res hr st t m len).notes =
      (emitStep res hr (chordSweep res t m (sustainStep res st t m)) t m len).notes := rfl

theorem noteStep_bPrevNoteHOPO (res hr : Int) (st : ChartState) (t m len : Int) :
    (noteStep res hr st t m len).bPrevNoteHOPO =
      (emitStep res hr (chordSweep res t m (sustainStep res st t m)) t m len).bPrevNoteHOPO := rfl

theorem noteStep_iLastChordRow (res hr : Int) (st : ChartState) (t m len : Int) :
    (noteStep res hr st t m len).iLastChordRow =
      (emitStep res hr (chordSweep res t m (sustainStep res st t m)) t m len).iLastChordRow := rfl

/-- C3: chord-breaks-HOPO in the text engine.  When a note record at
tick `m` on track `t` arrives and another track `A` holds a HOPO whose
tick is within 1 of `m`, track `A`'s note is re-emitted as a gem with
its stored start and duration, its HOPO flag is cleared, and `m` is
recorded as the last chord tick. -/
theorem chordBreaksHopo (res hopoRes : Int) (st : ChartState) (t m len A : Int)
    (ht : 0 ≤ t ∧ t < 5) (hA : 0 ≤ A ∧ A < 5) (hAt : A ≠ t)
    (hH : st.bPrevNoteHOPO A = true)
    (hnear : |m - st.iPrevNoteMark A| ≤ 1) :
    (noteStep res hopoRes st t m len).bPrevNoteHOPO A = false ∧
    (noteStep res hopoRes st t m len).iLastChordRow = m ∧
    (noteStep res hopoRes st t m len).notes.GetTapNote A (st.iPrevNoteMark A) =
      (if 0 < st.iPrevNoteLength A then ⟨TapNoteType.GemHold, st.iPrevNoteLength A⟩
       else (⟨TapNoteType.Gem, 0⟩ : TapNote)) := by
  have hmem : A ∈ ([0, 1, 2, 3, 4] : List Int) := by
    simp only [List.mem_cons, List.not_mem_nil, or_false]
    omega
  have e1 : (sustainStep res st t m).bPrevNoteHOPO A = true := by
    rw [sustainStep_bPrevNoteHOPO]; exact hH
  have e2 : (sustainStep res st t m).iPrevNoteMark A = st.iPrevNoteMark A := by
    rw [sustainStep_iPrevNoteMark]
  have e3 : (sustainStep res st t m).iPrevNoteLength A = st.iPrevNoteLength A :=
    sustainStep_iPrevNoteLength_ne res st t m A hAt
  have hf := chordFold_fires res t m A [0, 1, 2, 3, 4] (sustainStep res st t m) hmem e1 hAt
    (by rw [e2]; exact hnear)
  rw [e2, e3] at hf
  have hcs : chordSweep res t m (sustainStep res st t m) =
      ([0, 1, 2, 3, 4] : List Int).foldl (chordSweepStep res t m) (sustainStep res st t m) := rfl
  refine ⟨?_, ?_, ?_⟩
  · rw [noteStep_bPrevNoteHOPO, emitStep_bPrevNoteHOPO_ne _ _ _ _ _ _ _ hAt, hcs]
    exact hf.1
  · rw [noteStep_iLastChordRow, emitStep_iLastChordRow, hcs]
    exact hf.2.1
  · rw [noteStep_notes, emitStep_notes_other _ _ _ _ _ _ _ _ (Or.inl hAt), hcs]
    exact hf.2.2

/-- A concrete classification state: a HOPO at tick 10 on track 1. -/
def c3State : ChartState :=
  { initialChartState with
    iPrevNoteMark := fun k => if k = 1 then 10 else -1,
    iPrevNoteLength := fun _ => 0,
    bPrevNoteHOPO := fun k => k = 1 }

theorem chordBreaksHopo_witness :
    (((0 : Int) ≤ 0 ∧ (0 : Int) < 5) ∧ ((0 : Int) ≤ 1 ∧ (1 : Int) < 5) ∧ (1 : Int) ≠ 0 ∧
      c3State.bPrevNoteHOPO 1 = true ∧ |(10 : Int) - c3State.iPrevNoteMark 1| ≤ 1)
    ∧ ((noteStep 192 48 c3State 0 10 0).bPrevNoteHOPO 1 = false ∧
       (noteStep 192 48 c3State 0 10 0).iLastChordRow = 10 ∧
       (noteStep 192 48 c3State 0 10 0).notes.GetTapNote 1 (c3State.iPrevNoteMark 1) =
         (if 0 < c3State.iPrevNoteLength 1 then
            ⟨TapNoteType.GemHold, c3State.iPrevNoteLength 1⟩
          else (⟨TapNoteType.Gem, 0⟩ : TapNote))) :=
  ⟨⟨by norm_num, by norm_num, by norm_num, by decide, by decide⟩,
   chordBreaksHopo 192 48 c3State 0 10 0 1 (by norm_num) (by norm_num) (by norm_num)
     (by decide) (by decide)⟩

theorem one_le_tdiv8 (res : Int) (h : 8 ≤ res) : 1 ≤ res.tdiv 8 := by
  obtain ⟨n, rfl⟩ := Int.eq_ofNat_of_zero_le (by omega : (0 : Int) ≤ res)
  show (1 : Int) ≤ ((n / 8 : Nat) : Int)
  have hn : 8 ≤ n := by exact_mod_cast h
  have h1 : 1 ≤ n / 8 := (Nat.one_le_div_iff (by norm_num)).mpr hn
  exact_mod_cast h1

theorem sustainStep_fire (res : Int) (st : ChartState) (t m : Int)
    (hcond : st.iPrevNoteLength t + st.iPrevNoteMark t + 1 ≥ m) :
    (sustainStep res st t m).notes.GetTapNote t (st.iPrevNoteMark t) =
      (if 0 < m - st.iPrevNoteMark t - res.tdiv 8 then
         ⟨(if st.bPrevNoteHOPO t then TapNoteType.HOPOHold else TapNoteType.GemHold),
           m - st.iPrevNoteMark t - res.tdiv 8⟩
       else
         ⟨(if st.bPrevNoteHOPO t then TapNoteType.HOPO else TapNoteType.Gem), 0⟩) := by
  unfold sustainStep
  rw [if_pos hcond]
  show (addNote (st.notes.SetTapNote t (BeatToNoteRow res (st.iPrevNoteMark t)) TAP_EMPTY) t
      (BeatToNoteRow res (st.iPrevNoteMark t))
      (BeatToNoteRow res (st.iPrevNoteMark t + (m - st.iPrevNoteMark t - res.tdiv 8)))
      (if st.bPrevNoteHOPO t then 3 else 2)).GetTapNote t (st.iPrevNoteMark t) = _
  simp only [BeatToNoteRow]
  by_cases hb : st.bPrevNoteHOPO t
  · rw [if_pos hb, addNote_GetTapNote_self _ _ _ _ 3 (by norm_num)]
    by_cases hpos : 0 < m - st.iPrevNoteMark t - res.tdiv 8
    · rw [if_pos (by omega), if_pos hpos, if_pos hb]
      norm_num [heldKindType, TapNote.mk.injEq]
    · rw [if_neg (by omega), if_neg hpos, if_pos hb]
      norm_num [singleKind, TAP_ORIGINAL_HOPO]
  · rw [if_neg hb, addNote_GetTapNote_self _ _ _ _ 2 (by norm_num)]
    by_cases hpos : 0 < m - st.iPrevNoteMark t - res.tdiv 8
    · rw [if_pos (by omega), if_pos hpos, if_neg hb]
      norm_num [heldKindType, TapNote.mk.injEq]
    · rw [if_neg (by omega), if_neg hpos, if_neg hb]
      norm_num [singleKind, TAP_ORIGINAL_GEM]

/-- C1 (amended): sustain-overlap correction.  When the incoming note
at tick `t2` on track `t` overlaps the previous note (`t2 ≤ t1 + len1 +
1`), the previous note's event is cleared and re-emitted with its
stored HOPO/strum category and corrected length `t2 - t1 -
resolution/8` (non-held when that is not positive); provided the
resolution is at least 8 the corrected held end `t1 + (t2 - t1 -
resolution/8)` lies strictly below `t2` (for a smaller resolution the
subtrahend `resolution/8` is 0 and the held end equals `t2`). -/
theorem sustainOverlapCorrection (res hopoRes : Int) (st : ChartState) (t t1 len1 t2 len : Int)
    (hres : 8 ≤ res) (ht : 0 ≤ t ∧ t < 5)
    (hmark : st.iPrevNoteMark t = t1) (hlen : st.iPrevNoteLength t = len1)
    (hover : len1 + t1 + 1 ≥ t2) (ht12 : t1 < t2) :
    ((noteStep res hopoRes st t t2 len).notes.GetTapNote t t1 =
      (if 0 < t2 - t1 - res.tdiv 8 then
         ⟨(if st.bPrevNoteHOPO t then TapNoteType.HOPOHold else TapNoteType.GemHold),
           t2 - t1 - res.tdiv 8⟩
       else
         ⟨(if st.bPrevNoteHOPO t then TapNoteType.HOPO else TapNoteType.Gem), 0⟩))
    ∧ (0 < t2 - t1 - res.tdiv 8 → t1 + (t2 - t1 - res.tdiv 8) < t2) := by
  refine ⟨?_, fun hp => by have := one_le_tdiv8 res hres; omega⟩
  rw [noteStep_notes, emitStep_notes_other _ _ _ _ _ _ _ _ (Or.inr (by omega))]
  have hcs : chordSweep res t t2 (sustainStep res st t t2) =
      ([0, 1, 2, 3, 4] : List Int).foldl (chordSweepStep res t t2)
        (sustainStep res st t t2) := rfl
  rw [hcs, chordFold_notes_track_t, ← hmark]
  exact sustainStep_fire res st t t2 (by rw [hlen, hmark]; exact hover)

/-- A concrete classification state: a length-10 note at tick 0 on
track 0. -/
def c1State : ChartState :=
  { initialChartState with
    iPrevNoteMark := fun k => if k = 0 then 0 else -1,
    iPrevNoteLength := fun k => if k = 0 then 10 else -1 }

theorem sustainOverlapCorrection_witness :
    ((8 : Int) ≤ 192 ∧ ((0 : Int) ≤ 0 ∧ (0 : Int) < 5) ∧ c1State.iPrevNoteMark 0 = 0 ∧
      c1State.iPrevNoteLength 0 = 10 ∧ (10 : Int) + 0 + 1 ≥ 5 ∧ (0 : Int) < 5)
    ∧ (((noteStep 192 48 c1State 0 5 0).notes.GetTapNote 0 0 =
        (if 0 < (5 : Int) - 0 - (192 : Int).tdiv 8 then
           ⟨(if c1State.bPrevNoteHOPO 0 then TapNoteType.HOPOHold else TapNoteType.GemHold),
             (5 : Int) - 0 - (192 : Int).tdiv 8⟩
         else
           ⟨(if c1State.bPrevNoteHOPO 0 then TapNoteType.HOPO else TapNoteType.Gem), 0⟩))
      ∧ (0 < (5 : Int) - 0 - (192 : Int).tdiv 8 →
          (0 : Int) + ((5 : Int) - 0 - (192 : Int).tdiv 8) < 5)) :=
  ⟨⟨by norm_num, by norm_num, by decide, by decide, by norm_num, by norm_num⟩,
   sustainOverlapCorrection 192 48 c1State 0 0 10 5 0 (by norm_num) (by norm_num)
     (by decide) (by decide) (by decide) (by norm_num)⟩

theorem chordSweep_iLastTapRow_eq (res t m : Int) (st : ChartState) :
    (chordSweep res t m (sustainStep res st t m)).iLastTapRow = st.iLastTapRow := by
  have hcs : chordSweep res t m (sustainStep res st t m) =
      ([0, 1, 2, 3, 4] : List Int).foldl (chordSweepStep res t m)
        (sustainStep res st t m) := rfl
  rw [hcs, chordFold_iLastTapRow, sustainStep_iLastTapRow]

theorem chordSweep_iLastForcedRow_eq (res t m : Int) (st : ChartState) :
    (chordSweep res t m (sustainStep res st t m)).iLastForcedRow = st.iLastForcedRow := by
  have hcs : chordSweep res t m (sustainStep res st t m) =
      ([0, 1, 2, 3, 4] : List Int).foldl (chordSweepStep res t m)
        (sustainStep res st t m) := rfl
  rw [hcs, chordFold_iLastForcedRow, sustainStep_iLastForcedRow]

/-- The note emitted for `(t, m, len)` by the non-tap branch of
`emitStep`, as a function of the final (possibly inverted) HOPO
decision. -/
theorem emitStep_decision (res hopoRes : Int) (st2 : ChartState) (t m len : Int)
    (htap : ¬(|st2.iLastTapRow - m| ≤ 1 ∧ st2.iLastTapRow ≠ -1)) :
    (emitStep res hopoRes st2 t m len).notes.GetTapNote t m =
      (if (if |st2.iLastForcedRow - m| ≤ 1 ∧ st2.iLastForcedRow ≠ -1 then
             !textShouldBeHOPOPre hopoRes st2 t m
           else textShouldBeHOPOPre hopoRes st2 t m) = true then
         (if 0 < len then (⟨TapNoteType.HOPOHold, len⟩ : TapNote) else ⟨TapNoteType.HOPO, 0⟩)
       else
         (if 0 < len then (⟨TapNoteType.GemHold, len⟩ : TapNote) else ⟨TapNoteType.Gem, 0⟩)) := by
  unfold emitStep
  rw [if_neg htap]
  show (addNote st2.notes t (BeatToNoteRow res m) (BeatToNoteRow res (m + len))
      (if (if |st2.iLastForcedRow - m| ≤ 1 ∧ st2.iLastForcedRow ≠ -1 then
             !textShouldBeHOPOPre hopoRes st2 t m
           else textShouldBeHOPOPre hopoRes st2 t m) then 3 else 2)).GetTapNote t m = _
  simp only [BeatToNoteRow]
  rw [addNote_GetTapNote_self _ _ _ _ _ (by split_ifs <;> norm_num)]
  split_ifs with h1 h2 h2 <;>
    first
      | (norm_num [heldKindType, TapNote.mk.injEq]; omega)
      | (norm_num [heldKindType, singleKind, TAP_ORIGINAL_HOPO, TAP_ORIGINAL_GEM,
          TapNote.mk.injEq] <;> omega)

/-- C4: forced-marker inversion in the text engine.  For a note that is
not tap-overridden, the emitted category is exactly the scan decision,
inverted once when the tick lies within 1 of the recorded forced-marker
tick; and processing a forced-marker record overwrites the recorded
forced tick (so two markers at different ticks each govern their own
inversion, with no accumulation). -/
theorem forcedMarkerInversion (res hopoRes : Int) (st : ChartState) (t m len f : Int)
    (htap : ¬(|st.iLastTapRow - m| ≤ 1 ∧ st.iLastTapRow ≠ -1)) :
    ((noteStep res hopoRes st t m len).notes.GetTapNote t m =
      (if (if |st.iLastForcedRow - m| ≤ 1 ∧ st.iLastForcedRow ≠ -1 then
             !textShouldBeHOPOPre hopoRes (chordSweep res t m (sustainStep res st t m)) t m
           else
             textShouldBeHOPOPre hopoRes (chordSweep res t m (sustainStep res st t m)) t m) =
          true then
         (if 0 < len then (⟨TapNoteType.HOPOHold, len⟩ : TapNote) else ⟨TapNoteType.HOPO, 0⟩)
       else
         (if 0 < len then (⟨TapNoteType.GemHold, len⟩ : TapNote) else ⟨TapNoteType.Gem, 0⟩)))
    ∧ (forcedMarkerStep res st f).iLastForcedRow = f := by
  have htap2 : ¬(|(chordSweep res t m (sustainStep res st t m)).iLastTapRow - m| ≤ 1 ∧
      (chordSweep res t m (sustainStep res st t m)).iLastTapRow ≠ -1) := by
    rw [chordSweep_iLastTapRow_eq]; exact htap
  refine ⟨?_, rfl⟩
  rw [noteStep_notes, emitStep_decision res hopoRes _ t m len htap2,
    chordSweep_iLastForcedRow_eq]

theorem forcedMarkerInversion_witness :
    (¬(|initialChartState.iLastTapRow - 0| ≤ 1 ∧ initialChartState.iLastTapRow ≠ -1))
    ∧ (((noteStep 192 48 initialChartState 0 0 0).notes.GetTapNote 0 0 =
        (if (if |initialChartState.iLastForcedRow - 0| ≤ 1 ∧
                initialChartState.iLastForcedRow ≠ -1 then
               !textShouldBeHOPOPre 48
                 (chordSweep 192 0 0 (sustainStep 192 initialChartState 0 0)) 0 0
             else
               textShouldBeHOPOPre 48
                 (chordSweep 192 0 0 (sustainStep 192 initialChartState 0 0)) 0 0) =
            true then
           (if (0 : Int) < 0 then (⟨TapNoteType.HOPOHold, 0⟩ : TapNote)
            else ⟨TapNoteType.HOPO, 0⟩)
         else
           (if (0 : Int) < 0 then (⟨TapNoteType.GemHold, 0⟩ : TapNote)
            else ⟨TapNoteType.Gem, 0⟩)))
      ∧ (forcedMarkerStep 192 initialChartState 7).iLastForcedRow = 7) :=
  ⟨by decide, forcedMarkerInversion 192 48 initialChartState 0 0 0 7 (by decide)⟩

theorem emitStep_tap (res hopoRes : Int) (st2 : ChartState) (t m len : Int)
    (htap : |st2.iLastTapRow - m| ≤ 1 ∧ st2.iLastTapRow ≠ -1) :
    (emitStep res hopoRes st2 t m len).notes.GetTapNote t m =
      (if 0 < len then (⟨TapNoteType.HoldHead, len⟩ : TapNote) else ⟨TapNoteType.Tap, 0⟩) ∧
    (emitStep res hopoRes st2 t m len).bPrevNoteHOPO t = false := by
  unfold emitStep
  rw [if_pos htap]
  constructor
  · show (addNote st2.notes t (BeatToNoteRow res m) (BeatToNoteRow res (m + len)) 1).GetTapNote
        t m = _
    simp only [BeatToNoteRow]
    rw [addNote_GetTapNote_self _ _ _ _ 1 (by norm_num)]
    by_cases hl : 0 < len
    · rw [if_pos (by omega), if_pos hl]
      norm_num [heldKindType, TapNote.mk.injEq]
    · rw [if_neg (by omega), if_neg hl]
      norm_num [singleKind, TAP_ORIGINAL_TAP]
  · show Function.update st2.bPrevNoteHOPO t false t = false
    simp

theorem addGHRBNote_tap (notes : NoteData) (gd : GuitarData) (col start e : Int)
    (hcols : gd.iCols = 6) (hcol : 0 ≤ col ∧ col < 5) (htap : gd.bInTapSection = true)
    (hres : 0 ≤ gd.iResolution) :
    (addGHRBNote notes col start e gd).1.GetTapNote
        (if gd.bInOpenSection = true then 5 else col) start =
      (if gd.iResolution.tdiv 2 < e - start then
         (⟨TapNoteType.HoldHead, e - gd.iResolution.tdiv 8 - start⟩ : TapNote)
       else ⟨TapNoteType.Tap, 0⟩) := by
  have hc5 : ¬col = 5 := by omega
  have hc6 : ¬col = 6 := by omega
  have hcm1 : ¬col = -1 := by omega
  simp only [addGHRBNote, hcols, htap, midiRealEnd, BeatToNoteRow]
  norm_num [hc5, hc6, hcm1]
  by_cases hheld : gd.iResolution.tdiv 2 < e - start
  · rw [if_pos hheld]
    have hlt : start < e - gd.iResolution.tdiv 8 := by
      have := tdiv8_le_tdiv2 gd.iResolution hres
      omega
    rw [placeNote_GetTapNote_self _ _ _ _ 1 (by norm_num), if_pos hlt, if_pos hheld]
    norm_num [heldKindType, TapNote.mk.injEq]
  · rw [if_neg hheld]
    rw [placeNote_GetTapNote_self _ _ _ _ 1 (by norm_num), if_neg (lt_irrefl start),
      if_neg hheld]
    norm_num [singleKind, TAP_ORIGINAL_TAP]

/-- C5: tap-override dominance.  In the text engine a note within 1
tick of a recorded tap-override marker is emitted as a tap (held when
its length is positive) and its track's HOPO flag is cleared,
regardless of the chord and forced-marker state; in the MIDI engine a
candidate on a normal lane read while the tap-section flag is active is
emitted as a tap (held per the held computation), regardless of the
classification state. -/
theorem tapOverrideDominance (res hopoRes : Int) (st : ChartState) (t m len : Int)
    (notes : NoteData) (gd : GuitarData) (col start e : Int)
    (htap : |st.iLastTapRow - m| ≤ 1 ∧ st.iLastTapRow ≠ -1)
    (hcols : gd.iCols = 6) (hcol : 0 ≤ col ∧ col < 5)
    (htapSec : gd.bInTapSection = true) (hres : 0 ≤ gd.iResolution) :
    ((noteStep res hopoRes st t m len).notes.GetTapNote t m =
       (if 0 < len then (⟨TapNoteType.HoldHead, len⟩ : TapNote) else ⟨TapNoteType.Tap, 0⟩) ∧
     (noteStep res hopoRes st t m len).bPrevNoteHOPO t = false)
    ∧ (addGHRBNote notes col start e gd).1.GetTapNote
        (if gd.bInOpenSection = true then 5 else col) start =
      (if gd.iResolution.tdiv 2 < e - start then
         (⟨TapNoteType.HoldHead, e - gd.iResolution.tdiv 8 - start⟩ : TapNote)
       else ⟨TapNoteType.Tap, 0⟩) := by
  have htap2 : |(chordSweep res t m (sustainStep res st t m)).iLastTapRow - m| ≤ 1 ∧
      (chordSweep res t m (sustainStep res st t m)).iLastTapRow ≠ -1 := by
    rw [chordSweep_iLastTapRow_eq]; exact htap
  have he := emitStep_tap res hopoRes (chordSweep res t m (sustainStep res st t m)) t m len htap2
  exact ⟨⟨by rw [noteStep_notes]; exact he.1, by rw [noteStep_bPrevNoteHOPO]; exact he.2⟩,
    addGHRBNote_tap notes gd col start e hcols hcol htapSec hres⟩

/-- A concrete classification state: a tap-override marker at tick 4. -/
def c5State : ChartState := { initialChartState with iLastTapRow := 4 }

/-- A concrete MIDI classification state inside a tap section. -/
def c5Guitar : GuitarData := { gdSample with bInTapSection := true }

theorem tapOverrideDominance_witness :
    ((|c5State.iLastTapRow - 5| ≤ 1 ∧ c5State.iLastTapRow ≠ -1) ∧ c5Guitar.iCols = 6 ∧
      ((0 : Int) ≤ 2 ∧ (2 : Int) < 5) ∧ c5Guitar.bInTapSection = true ∧
      (0 : Int) ≤ c5Guitar.iResolution)
    ∧ (((noteStep 192 48 c5State 0 5 7).notes.GetTapNote 0 5 =
         (if (0 : Int) < 7 then (⟨TapNoteType.HoldHead, 7⟩ : TapNote)
          else ⟨TapNoteType.Tap, 0⟩) ∧
        (noteStep 192 48 c5State 0 5 7).bPrevNoteHOPO 0 = false)
      ∧ (addGHRBNote emptyNoteData 2 0 200 c5Guitar).1.GetTapNote
          (if c5Guitar.bInOpenSection = true then 5 else 2) 0 =
        (if c5Guitar.iResolution.tdiv 2 < 200 - 0 then
           (⟨TapNoteType.HoldHead, 200 - c5Guitar.iResolution.tdiv 8 - 0⟩ : TapNote)
         else ⟨TapNoteType.Tap, 0⟩)) :=
  ⟨⟨by decide, by decide, by norm_num, by decide, by decide⟩,
   tapOverrideDominance 192 48 c5State 0 5 7 emptyNoteData c5Guitar 2 0 200
     (by decide) (by decide) (by norm_num) (by decide) (by decide)⟩

theorem forcedHopoSweep_found (taps : Int → TapNote) (startRow : Int) (l : List Int)
    (nd : NoteData) (i r : Int) :
    (forcedHopoSweep taps startRow l true nd).GetTapNote i r =
      if i ∈ l ∧ taps i ≠ TAP_EMPTY ∧ r = startRow then TAP_EMPTY
      else nd.GetTapNote i r := by
  induction l generalizing nd with
  | nil => simp [forcedHopoSweep]
  | cons j js ih =>
    unfold forcedHopoSweep
    by_cases hj : taps j = TAP_EMPTY
    · rw [if_pos hj, ih]
      by_cases hic : i ∈ js ∧ taps i ≠ TAP_EMPTY ∧ r = startRow
      · rw [if_pos hic, if_pos ⟨List.mem_cons_of_mem j hic.1, hic.2⟩]
      · rw [if_neg hic, if_neg ?hn]
        case hn =>
          intro hc
          rcases List.mem_cons.mp hc.1 with hij | hmem
          · exact hc.2.1 (hij ▸ hj)
          · exact hic ⟨hmem, hc.2⟩
    · rw [if_neg hj, if_pos rfl, ih, GetTapNote_SetTapNote]
      by_cases hic : i ∈ js ∧ taps i ≠ TAP_EMPTY ∧ r = startRow
      · rw [if_pos hic, if_pos ⟨List.mem_cons_of_mem j hic.1, hic.2⟩]
      · rw [if_neg hic]
        by_cases hij : i = j ∧ r = startRow
        · rw [if_pos hij, if_pos ⟨by rw [hij.1]; exact List.mem_cons_self j js,
            by rw [hij.1]; exact hj, hij.2⟩]
        · rw [if_neg hij, if_neg ?hn2]
          case hn2 =>
            intro hc
            rcases List.mem_cons.mp hc.1 with he | hmem
            · exact hij ⟨he, hc.2.2⟩
            · exact hic ⟨hmem, hc.2⟩

theorem forcedHopoSweep_notFound (taps : Int → TapNote) (startRow : Int) (l : List Int)
    (nd : NoteData) (h i r : Int)
    (hsort : l.Pairwise (fun a b => b < a))
    (hmem : h ∈ l) (hocc : taps h ≠ TAP_EMPTY)
    (hhigh : ∀ j ∈ l, h < j → taps j = TAP_EMPTY) :
    (forcedHopoSweep taps startRow l false nd).GetTapNote i r =
      if i = h ∧ r = startRow then
        (if 0 < (taps h).iDuration then ⟨TapNoteType.HOPOHold, (taps h).iDuration⟩
         else (⟨TapNoteType.HOPO, 0⟩ : TapNote))
      else if i ∈ l ∧ taps i ≠ TAP_EMPTY ∧ r = startRow then TAP_EMPTY
      else nd.GetTapNote i r := by
  induction l generalizing nd with
  | nil => cases hmem
  | cons j js ih =>
    unfold forcedHopoSweep
    rcases List.mem_cons.mp hmem with hjh | hmem2
    · subst hjh
      have hnotin : h ∉ js := by
        intro hin
        have := (List.pairwise_cons.mp hsort).1 h hin
        omega
      rw [if_neg hocc, if_neg (by simp), forcedHopoSweep_found]
      by_cases h1 : i ∈ js ∧ taps i ≠ TAP_EMPTY ∧ r = startRow
      · have hine : ¬(i = h ∧ r = startRow) := fun hc => hnotin (hc.1 ▸ h1.1)
        rw [if_pos h1, if_neg hine, if_pos ⟨List.mem_cons_of_mem h h1.1, h1.2⟩]
      · rw [if_neg h1]
        by_cases h2 : i = h ∧ r = startRow
        · rw [if_pos h2, h2.1, h2.2,
            placeNote_GetTapNote_self _ _ _ _ 3 (by norm_num)]
          by_cases hd : 0 < (taps h).iDuration
          · rw [if_pos (by omega), if_pos hd]
            norm_num [heldKindType, TapNote.mk.injEq]
          · rw [if_neg (by omega), if_neg hd]
            norm_num [singleKind, TAP_ORIGINAL_HOPO]
        · rw [if_neg h2,
            placeNote_GetTapNote_other _ _ _ _ _ _ _ (by tauto), if_neg ?hn3]
          case hn3 =>
            intro hc
            rcases List.mem_cons.mp hc.1 with he | hmemi
            · exact h2 ⟨he, hc.2.2⟩
            · exact h1 ⟨hmemi, hc.2⟩
    · have hgt : h < j := (List.pairwise_cons.mp hsort).1 h hmem2
      have hjE : taps j = TAP_EMPTY := hhigh j (List.mem_cons_self j js) hgt
      rw [if_pos hjE,
        ih nd (List.pairwise_cons.mp hsort).2 hmem2
          (fun a ha hla => hhigh a (List.mem_cons_of_mem j ha) hla)]
      by_cases h2 : i = h ∧ r = startRow
      · rw [if_pos h2, if_pos h2]
      · rw [if_neg h2, if_neg h2]
        by_cases h1 : i ∈ js ∧ taps i ≠ TAP_EMPTY ∧ r = startRow
        · rw [if_pos h1, if_pos ⟨List.mem_cons_of_mem j h1.1, h1.2⟩]
        · rw [if_neg h1, if_neg ?hn4]
          case hn4 =>
            intro hc
            rcases List.mem_cons.mp hc.1 with he | hmemi
            · exact hc.2.1 (he ▸ hjE)
            · exact h1 ⟨hmemi, hc.2⟩

theorem rowScanFold_fst_true (notes : NoteData) (r : Int) (l : List Nat) (acc : Bool × Int)
    (h : acc.1 = true) :
    (l.foldl (rowScanStep notes r) acc).1 = true := by
  induction l generalizing acc with
  | nil => exact h
  | cons k ks ih =>
    rw [List.foldl_cons]
    apply ih
    unfold rowScanStep
    split
    · rfl
    · exact h

theorem rowScanFold_fst_of_mem (notes : NoteData) (r : Int) (l : List Nat) (acc : Bool × Int)
    (i0 : Nat) (hmem : i0 ∈ l) (hocc : notes.GetTapNote (i0 : Int) r ≠ TAP_EMPTY) :
    (l.foldl (rowScanStep notes r) acc).1 = true := by
  induction l generalizing acc with
  | nil => cases hmem
  | cons k ks ih =>
    rw [List.foldl_cons]
    rcases List.mem_cons.mp hmem with he | hm
    · apply rowScanFold_fst_true
      subst he
      unfold rowScanStep
      rw [if_pos hocc]
    · exact ih _ hm
  
theorem rowScan_fst_of_occ (notes : NoteData) (cols r i0 : Int)
    (h0 : 0 ≤ i0) (hlt : i0 < cols) (hocc : notes.GetTapNote i0 r ≠ TAP_EMPTY) :
    (rowScan notes cols r).1 = true := by
  unfold rowScan
  apply rowScanFold_fst_of_mem notes r _ _ i0.toNat
  · rw [List.mem_range]
    omega
  · rw [Int.toNat_of_nonneg h0]
    exact hocc

/-- C6: MIDI forced-HOPO marker with a chord.  A forced-HOPO marker-lane
hit (lane 5 on a five-fret chart) at a row where notes exist keeps only
the highest occupied lane, converted to a HOPO (held per its stored
duration); every other lane reads as empty at that row afterwards; and
the marker tick is recorded whether or not any note was present (the
first conjunct holds for an arbitrary timeline). -/
theorem midiForcedHopoChord (notes notesB : NoteData) (gd : GuitarData) (start e h : Int)
    (hcols : gd.iCols = 6)
    (hh : 0 ≤ h ∧ h < 6)
    (hocc : notes.GetTapNote h start ≠ TAP_EMPTY)
    (hhigh : ∀ i : Int, h < i → i < 6 → notes.GetTapNote i start = TAP_EMPTY) :
    (addGHRBNote notesB 5 start e gd).2.iLastForcedHOPO = start ∧
    (addGHRBNote notes 5 start e gd).1.GetTapNote h start =
      (if 0 < (notes.GetTapNote h start).iDuration then
         ⟨TapNoteType.HOPOHold, (notes.GetTapNote h start).iDuration⟩
       else (⟨TapNoteType.HOPO, 0⟩ : TapNote)) ∧
    (∀ i : Int, 0 ≤ i → i < 6 → i ≠ h →
      (addGHRBNote notes 5 start e gd).1.GetTapNote i start = TAP_EMPTY) := by
  have hrev : (colList (6 : Int)).reverse = [5, 4, 3, 2, 1, 0] := by decide
  have hscan : (rowScan notes 6 start).1 = true :=
    rowScan_fst_of_occ notes 6 start h hh.1 hh.2 hocc
  have hsort : ([5, 4, 3, 2, 1, 0] : List Int).Pairwise (fun a b => b < a) := by decide
  have hmem : h ∈ ([5, 4, 3, 2, 1, 0] : List Int) := by
    simp only [List.mem_cons, List.not_mem_nil, or_false]
    omega
  have hhigh2 : ∀ j ∈ ([5, 4, 3, 2, 1, 0] : List Int), h < j →
      (fun i => notes.GetTapNote i start) j = TAP_EMPTY := by
    intro j hj hlt
    have hj6 : j < 6 := by
      simp only [List.mem_cons, List.not_mem_nil, or_false] at hj
      omega
    exact hhigh j hlt hj6
  have hsweep := forcedHopoSweep_notFound (fun i => notes.GetTapNote i start) start
    [5, 4, 3, 2, 1, 0] notes h
  refine ⟨?_, ?_, ?_⟩
  · simp only [addGHRBNote, hcols, BeatToNoteRow, midiRealEnd]
    norm_num
  · simp only [addGHRBNote, hcols, BeatToNoteRow, midiRealEnd]
    norm_num
    rw [if_pos hscan, hrev, hsweep h start hsort hmem hocc hhigh2,
      if_pos ⟨rfl, rfl⟩]
  · intro i h0 h6 hne
    simp only [addGHRBNote, hcols, BeatToNoteRow, midiRealEnd]
    norm_num
    rw [if_pos hscan, hrev, hsweep i start hsort hmem hocc hhigh2,
      if_neg (fun hc => hne hc.1)]
    by_cases hoi : notes.GetTapNote i start = TAP_EMPTY
    · rw [if_neg (fun hc => hc.2.1 hoi)]
      exact hoi
    · have hmi : i ∈ ([5, 4, 3, 2, 1, 0] : List Int) := by
        simp only [List.mem_cons, List.not_mem_nil, or_false]
        omega
      rw [if_pos ⟨hmi, hoi, rfl⟩]

/-- A concrete timeline: a gem on lane 2 and a HOPO on lane 4 at row 0. -/
def c6Notes : NoteData :=
  (emptyNoteData.SetTapNote 2 0 ⟨TapNoteType.Gem, 0⟩).SetTapNote 4 0 ⟨TapNoteType.HOPO, 0⟩

theorem midiForcedHopoChord_witness :
    (gdSample.iCols = 6 ∧ ((0 : Int) ≤ 4 ∧ (4 : Int) < 6) ∧
      c6Notes.GetTapNote 4 0 ≠ TAP_EMPTY ∧
      (∀ i : Int, 4 < i → i < 6 → c6Notes.GetTapNote i 0 = TAP_EMPTY))
    ∧ ((addGHRBNote emptyNoteData 5 0 0 gdSample).2.iLastForcedHOPO = 0 ∧
       (addGHRBNote c6Notes 5 0 0 gdSample).1.GetTapNote 4 0 =
         (if 0 < (c6Notes.GetTapNote 4 0).iDuration then
            ⟨TapNoteType.HOPOHold, (c6Notes.GetTapNote 4 0).iDuration⟩
          else (⟨TapNoteType.HOPO, 0⟩ : TapNote)) ∧
       (∀ i : Int, 0 ≤ i → i < 6 → i ≠ 4 →
         (addGHRBNote c6Notes 5 0 0 gdSample).1.GetTapNote i 0 = TAP_EMPTY)) :=
  ⟨⟨by decide, by norm_num, by decide,
    by
      intro i h4 h6
      interval_cases i
      decide⟩,
   midiForcedHopoChord c6Notes emptyNoteData gdSample 0 0 4 (by decide) (by norm_num)
     (by decide)
     (by
       intro i h4 h6
       interval_cases i
       decide)⟩

/-- The maximum last-note tick across all lanes (-1 when every lane is
unset), as referenced by the Rock-Band after-chord restriction. -/
def maxLast (gd : GuitarData) : Int :=
  ((List.range gd.iCols.toNat).map (fun k : Nat => gd.iPrevNoteMark (k : Int))).foldl max (-1)

theorem checkHOPOFold_fst (gd : GuitarData) (tr mk : Int) (l : List Nat)
    (acc : Bool × Int × Int) :
    (l.foldl (checkHOPOStep gd tr mk) acc).1 =
      (acc.1 || l.any (fun k : Nat =>
        decide (mk - gd.iPrevNoteMark (k : Int) ≤ gd.iHopoResolution ∧
          tr ≠ (k : Int) ∧ gd.iPrevNoteMark (k : Int) ≠ -1))) := by
  induction l generalizing acc with
  | nil => simp
  | cons j js ih =>
    rw [List.foldl_cons, ih, List.any_cons]
    show ((if mk - gd.iPrevNoteMark (j : Int) ≤ gd.iHopoResolution ∧
        tr ≠ (j : Int) ∧ gd.iPrevNoteMark (j : Int) ≠ -1 then true else acc.1) || _) = _
    by_cases hc : mk - gd.iPrevNoteMark (j : Int) ≤ gd.iHopoResolution ∧
        tr ≠ (j : Int) ∧ gd.iPrevNoteMark (j : Int) ≠ -1
    · rw [if_pos hc, decide_eq_true hc]
      cases acc.1 <;> simp
    · rw [if_neg hc, decide_eq_false hc]
      cases acc.1 <;> simp

theorem checkHOPOFold_max (gd : GuitarData) (tr mk : Int) (l : List Nat)
    (acc : Bool × Int × Int) :
    (l.foldl (checkHOPOStep gd tr mk) acc).2.2 =
      (l.map (fun k : Nat => gd.iPrevNoteMark (k : Int))).foldl max acc.2.2 := by
  induction l generalizing acc with
  | nil => rfl
  | cons j js ih =>
    rw [List.foldl_cons, ih, List.map_cons, List.foldl_cons]
    congr 1
    show (if gd.iPrevNoteMark (j : Int) > acc.2.2 then ((j : Int), gd.iPrevNoteMark (j : Int))
      else acc.2).2 = _
    by_cases h : gd.iPrevNoteMark (j : Int) > acc.2.2
    · rw [if_pos h]
      show gd.iPrevNoteMark (j : Int) = _
      omega
    · rw [if_neg h]
      show acc.2.2 = _
      omega

theorem checkHOPOFold_trackInv (gd : GuitarData) (tr mk : Int) (l : List Nat)
    (acc : Bool × Int × Int)
    (hinv : (acc.2.1 = -1 → acc.2.2 = -1) ∧ -1 ≤ acc.2.2) :
    ((l.foldl (checkHOPOStep gd tr mk) acc).2.1 = -1 →
      (l.foldl (checkHOPOStep gd tr mk) acc).2.2 = -1) ∧
    -1 ≤ (l.foldl (checkHOPOStep gd tr mk) acc).2.2 := by
  induction l generalizing acc with
  | nil => exact hinv
  | cons j js ih =>
    rw [List.foldl_cons]
    apply ih
    constructor
    · show (if gd.iPrevNoteMark (j : Int) > acc.2.2 then ((j : Int), gd.iPrevNoteMark (j : Int))
        else acc.2).1 = -1 →
        (if gd.iPrevNoteMark (j : Int) > acc.2.2 then ((j : Int), gd.iPrevNoteMark (j : Int))
        else acc.2).2 = -1
      by_cases h : gd.iPrevNoteMark (j : Int) > acc.2.2
      · rw [if_pos h]
        intro hj
        exfalso
        omega
      · rw [if_neg h]
        exact hinv.1
    · show -1 ≤ (if gd.iPrevNoteMark (j : Int) > acc.2.2 then
          ((j : Int), gd.iPrevNoteMark (j : Int)) else acc.2).2
      by_cases h : gd.iPrevNoteMark (j : Int) > acc.2.2
      · rw [if_pos h]
        show -1 ≤ gd.iPrevNoteMark (j : Int)
        omega
      · rw [if_neg h]
        exact hinv.2

theorem foldl_max_init_le (l : List Int) (a : Int) : a ≤ l.foldl max a := by
  induction l generalizing a with
  | nil => exact le_refl a
  | cons x xs ih =>
    rw [List.foldl_cons]
    exact le_trans (le_max_left a x) (ih (max a x))

theorem foldl_max_mem_le (l : List Int) (a x : Int) (hx : x ∈ l) : x ≤ l.foldl max a := by
  induction l generalizing a with
  | nil => cases hx
  | cons y ys ih =>
    rw [List.foldl_cons]
    rcases List.mem_cons.mp hx with he | hm
    · subst he
      exact le_trans (le_max_right a x) (foldl_max_init_le ys (max a x))
    · exact ih (max a y) hm

/-- C7: priority structure of the shared MIDI HOPO predicate.  The
forced-strum check wins, then the forced-HOPO check, then the chord
check; otherwise the result is the lane scan, except that under the
Rock-Band rule variant the result is forced to strum when the current
lane's last-note tick equals the maximum last-note tick across lanes.
The hypothesis is the state invariant that lane ticks are either the
initial -1 or an actual (nonnegative or at least -1) tick. -/
theorem midiCheckHopoPriority (gd : GuitarData) (track m : Int)
    (hinv : ∀ k : Int, -1 ≤ gd.iPrevNoteMark k) :
    (gd.iLastForcedStrum = m → checkHOPOConditions track m gd = false)
    ∧ (gd.iLastForcedStrum ≠ m → gd.iLastForcedHOPO = m ∧ gd.iLastForcedHOPO ≠ -1 →
        checkHOPOConditions track m gd = true)
    ∧ (gd.iLastForcedStrum ≠ m → ¬(gd.iLastForcedHOPO = m ∧ gd.iLastForcedHOPO ≠ -1) →
        gd.iLastChordRow = m ∧ gd.iLastChordRow ≠ -1 →
        checkHOPOConditions track m gd = false)
    ∧ (gd.iLastForcedStrum ≠ m → ¬(gd.iLastForcedHOPO = m ∧ gd.iLastForcedHOPO ≠ -1) →
        ¬(gd.iLastChordRow = m ∧ gd.iLastChordRow ≠ -1) →
        (checkHOPOConditions track m gd = true ↔
          ((∃ k : Nat, k < gd.iCols.toNat ∧
              (m - gd.iPrevNoteMark (k : Int) ≤ gd.iHopoResolution ∧ track ≠ (k : Int) ∧
               gd.iPrevNoteMark (k : Int) ≠ -1)) ∧
           ¬(gd.hopoRules = HOPORules.RB_HOPO_Rules ∧
             gd.iPrevNoteMark track = maxLast gd)))) := by
  have hM : (checkHOPOLoop gd track m).2.2 = maxLast gd :=
    checkHOPOFold_max gd track m (List.range gd.iCols.toNat) (false, -1, -1)
  have hTI := checkHOPOFold_trackInv gd track m (List.range gd.iCols.toNat) (false, -1, -1)
    ⟨fun _ => rfl, by norm_num⟩
  have hscan_iff : (checkHOPOLoop gd track m).1 = true ↔
      (∃ k : Nat, k < gd.iCols.toNat ∧
        (m - gd.iPrevNoteMark (k : Int) ≤ gd.iHopoResolution ∧ track ≠ (k : Int) ∧
         gd.iPrevNoteMark (k : Int) ≠ -1)) := by
    unfold checkHOPOLoop
    rw [checkHOPOFold_fst]
    simp [List.any_eq_true, List.mem_range, decide_eq_true_eq]
  refine ⟨?_, ?_, ?_, ?_⟩
  · intro h
    unfold checkHOPOConditions
    rw [if_pos h]
  · intro h1 h2
    unfold checkHOPOConditions
    rw [if_neg h1, if_pos h2]
  · intro h1 h2 h3
    unfold checkHOPOConditions
    rw [if_neg h1, if_neg h2, if_pos h3]
  · intro h1 h2 h3
    unfold checkHOPOConditions
    rw [if_neg h1, if_neg h2, if_neg h3]
    by_cases hC : gd.hopoRules = HOPORules.RB_HOPO_Rules ∧
        (checkHOPOLoop gd track m).2.1 ≠ -1 ∧ gd.iPrevNoteMark track ≠ -1 ∧
        (checkHOPOLoop gd track m).2.2 ≠ -1 ∧
        gd.iPrevNoteMark track = (checkHOPOLoop gd track m).2.2
    · rw [if_pos hC]
      have hS : gd.hopoRules = HOPORules.RB_HOPO_Rules ∧
          gd.iPrevNoteMark track = maxLast gd := ⟨hC.1, by rw [← hM]; exact hC.2.2.2.2⟩
      constructor
      · intro h
        simp at h
      · intro hr
        exact absurd hS hr.2
    · rw [if_neg hC]
      by_cases hS : gd.hopoRules = HOPORules.RB_HOPO_Rules ∧
          gd.iPrevNoteMark track = maxLast gd
      · have hMne : maxLast gd = -1 := by
          by_contra hMne
          apply hC
          refine ⟨hS.1, ?_, ?_, ?_, ?_⟩
          · intro h21
            exact hMne (by rw [← hM]; exact hTI.1 h21)
          · rw [hS.2]
            exact hMne
          · rw [hM]
            exact hMne
          · rw [hM]
            exact hS.2
        have hallm1 : ∀ k : Nat, k < gd.iCols.toNat → gd.iPrevNoteMark (k : Int) = -1 := by
          intro k hk
          have hle : gd.iPrevNoteMark (k : Int) ≤ maxLast gd := by
            apply foldl_max_mem_le
            exact List.mem_map.mpr ⟨k, List.mem_range.mpr hk, rfl⟩
          have hge := hinv (k : Int)
          omega
        constructor
        · intro hone
          exfalso
          rcases hscan_iff.mp hone with ⟨k, hk, _, _, hkm⟩
          exact hkm (hallm1 k hk)
        · intro hr
          exfalso
          rcases hr.1 with ⟨k, hk, _, _, hkm⟩
          exact hkm (hallm1 k hk)
      · rw [hscan_iff]
        constructor
        · intro hex
          exact ⟨hex, hS⟩
        · intro hr
          exact hr.1

theorem midiCheckHopoPriority_witness :
    (∀ k : Int, -1 ≤ gdSample.iPrevNoteMark k) ∧
    ((gdSample.iLastForcedStrum = 0 → checkHOPOConditions 0 0 gdSample = false)
    ∧ (gdSample.iLastForcedStrum ≠ 0 →
        gdSample.iLastForcedHOPO = 0 ∧ gdSample.iLastForcedHOPO ≠ -1 →
        checkHOPOConditions 0 0 gdSample = true)
    ∧ (gdSample.iLastForcedStrum ≠ 0 →
        ¬(gdSample.iLastForcedHOPO = 0 ∧ gdSample.iLastForcedHOPO ≠ -1) →
        gdSample.iLastChordRow = 0 ∧ gdSample.iLastChordRow ≠ -1 →
        checkHOPOConditions 0 0 gdSample = false)
    ∧ (gdSample.iLastForcedStrum ≠ 0 →
        ¬(gdSample.iLastForcedHOPO = 0 ∧ gdSample.iLastForcedHOPO ≠ -1) →
        ¬(gdSample.iLastChordRow = 0 ∧ gdSample.iLastChordRow ≠ -1) →
        (checkHOPOConditions 0 0 gdSample = true ↔
          ((∃ k : Nat, k < gdSample.iCols.toNat ∧
              ((0 : Int) - gdSample.iPrevNoteMark (k : Int) ≤ gdSample.iHopoResolution ∧
               (0 : Int) ≠ (k : Int) ∧ gdSample.iPrevNoteMark (k : Int) ≠ -1)) ∧
           ¬(gdSample.hopoRules = HOPORules.RB_HOPO_Rules ∧
             gdSample.iPrevNoteMark 0 = maxLast gdSample))))) :=
  ⟨fun _ => le_refl (-1), midiCheckHopoPriority gdSample 0 0 (fun _ => le_refl (-1))⟩
